import Mathlib

/-!
# wartracker-cli `alliance scan`: a shallow embedding of `alliancecmd/scan.go`

The development follows `src/cmd/wartracker-cli/cmd/alliancecmd/scan.go`.

* Go strings are byte sequences: `GoString := List (Fin 256)`.
* Go `int` / `int64` are 64-bit two's-complement integers: values are `Int`,
  every arithmetic result is passed through `wrapInt64`; `uint64` values are
  `Nat`, reduced modulo `2 ^ 64`.
* `strconv.Atoi` belongs to the Go standard library; it is transcribed from the
  library source (`strconv/atoi.go`), specialised to the arguments `Atoi`
  passes on (base 10, bit size 0) and to a 64-bit target (`intSize = 64`).
* Package `wartracker/pkg/scanner`, package `wartracker/pkg/alliance`,
  `time.Now`, `json.MarshalIndent`, `png.Encode` and `os.WriteFile` are not part
  of the file: they are fields of the environment `Env`, and every call is
  recorded in an event log, so that "not called" is a statement about the log.
-/

namespace Lastwar

/-! ## Strings -/

/-- A Go `byte`. -/
abbrev Byte := Fin 256

/-- A Go `string`: an immutable sequence of bytes. -/
abbrev GoString := List Byte

/-- The bytes of a string literal (its UTF-8 encoding). -/
def str (s : String) : GoString :=
  s.toUTF8.data.toList.map (fun b => b.val)

/-! ## Machine integers -/

/-- The size of a Go `int` in bits (`strconv.IntSize`) on a 64-bit target. -/
def intSize : Nat := 64

/-- Two's-complement reduction of an integer to `int64`. -/
def wrapInt64 (x : Int) : Int := (x + 2 ^ 63) % 2 ^ 64 - 2 ^ 63

/-- Reduction of a natural number to `uint64`. -/
def wrapUint64 (x : Nat) : Nat := x % 2 ^ 64

/-- The conversion `int64(x)` of a Go `int`. -/
def int64 (x : Int) : Int := wrapInt64 x

/-! ## Errors -/

/-- The two sentinel errors of `strconv`. -/
inductive NumErr where
  | ErrSyntax
  | ErrRange
  deriving DecidableEq, Repr

/-- Go `error` values that occur in the scan: `*strconv.NumError`,
`sql.ErrNoRows`, and any other error value, identified by a number. -/
inductive Error where
  | NumError (Func : String) (Num : GoString) (Err : NumErr)
  | ErrNoRows
  | other (id : Nat)
  deriving DecidableEq, Repr

namespace strconv

/-- `strconv.syntaxError`. -/
def syntaxError (fn : String) (s : GoString) : Error := .NumError fn s .ErrSyntax

/-- `strconv.rangeError`. -/
def rangeError (fn : String) (s : GoString) : Error := .NumError fn s .ErrRange

/-- `strconv.lower`: `c | ('x' - 'X')`. -/
def lower (c : Byte) : Byte := Fin.ofNat (c.val ||| 0x20)

/-- `maxUint64`. -/
def maxUint64 : Nat := 2 ^ 64 - 1

/-- The digit switch in the loop of `strconv.ParseUint` (base other than 0):
the value of the byte `c` as a digit, or `none` in the default case. -/
def ParseUint.digit (c : Byte) : Option Byte :=
  if 48 ≤ c.val ∧ c.val ≤ 57 then some (c - 48)
  else if 97 ≤ (lower c).val ∧ (lower c).val ≤ 122 then some (lower c - 97 + 10)
  else none

/-- The loop of `strconv.ParseUint` over the remaining bytes, `n` being the
value accumulated so far. -/
def ParseUint.loop (s0 : GoString) (base cutoff maxVal : Nat) :
    GoString → Nat → Nat × Option Error
  | [], n => (n, none)
  | c :: rest, n =>
    match ParseUint.digit c with
    | none => (0, some (syntaxError "ParseUint" s0))
    | some d =>
      if d.val ≥ base % 256 then (0, some (syntaxError "ParseUint" s0))
      else if n ≥ cutoff then (maxVal, some (rangeError "ParseUint" s0))
      else
        let n := wrapUint64 (n * base)
        let n1 := wrapUint64 (n + d.val)
        if n1 < n ∨ n1 > maxVal then (maxVal, some (rangeError "ParseUint" s0))
        else ParseUint.loop s0 base cutoff maxVal rest n1

/-- `strconv.ParseUint(s, 10, bitSize)`, for `bitSize` 0 or between 1 and 64.
With base 10 the prefix and underscore handling of base 0 is not entered. -/
def ParseUint (s : GoString) (bitSize : Nat) : Nat × Option Error :=
  if s = [] then (0, some (syntaxError "ParseUint" s))
  else
    let bitSize := if bitSize = 0 then intSize else bitSize
    let cutoff := maxUint64 / 10 + 1
    -- `uint64(1)<<uint(bitSize) - 1`, in `uint64` arithmetic
    let maxVal := wrapUint64 (wrapUint64 (2 ^ bitSize) + (2 ^ 64 - 1))
    ParseUint.loop s 10 cutoff maxVal s 0

/-- `strconv.ParseInt(s, 10, bitSize)`. -/
def ParseInt (s : GoString) (bitSize : Nat) : Int × Option Error :=
  if s = [] then (0, some (syntaxError "ParseInt" s))
  else
    -- Pick off leading sign.
    let s0 := s
    let neg : Bool := s.head? = some 45
    let s := if s.head? = some 43 ∨ s.head? = some 45 then s.tail else s
    -- Convert unsigned and check range.
    let r := ParseUint s bitSize
    let un := r.1
    match r.2 with
    | some (.NumError _ _ .ErrSyntax) => (0, some (syntaxError "ParseInt" s0))
    | some (.ErrNoRows) => (0, r.2)
    | some (.other _) => (0, r.2)
    | _ =>
      let bitSize := if bitSize = 0 then intSize else bitSize
      let cutoff := wrapUint64 (2 ^ (bitSize - 1))
      if !neg ∧ un ≥ cutoff then (wrapInt64 (cutoff - 1 : Nat), some (rangeError "ParseInt" s0))
      else if neg ∧ un > cutoff then (wrapInt64 (-wrapInt64 (cutoff : Nat)), some (rangeError "ParseInt" s0))
      else
        let n := wrapInt64 (un : Nat)
        (if neg then wrapInt64 (-n) else n, none)

/-- The fast-path loop of `strconv.Atoi`: `ch -= 48; if ch > 9 ...;
n = n*10 + int(ch)`. -/
def Atoi.loop (s0 : GoString) : GoString → Int → Int × Option Error
  | [], n => (n, none)
  | ch :: rest, n =>
    let ch : Byte := ch - 48
    if ch.val > 9 then (0, some (syntaxError "Atoi" s0))
    else Atoi.loop s0 rest (wrapInt64 (wrapInt64 (n * 10) + (ch.val : Nat)))

/-- `strconv.Atoi` on a target whose `int` has `intSize` bits. -/
def Atoi (s : GoString) : Int × Option Error :=
  let sLen := s.length
  if (intSize = 32 ∧ (0 < sLen ∧ sLen < 10)) ∨ (intSize = 64 ∧ (0 < sLen ∧ sLen < 19)) then
    -- Fast path for small integers that fit int type.
    let s0 := s
    let signed : Bool := s.head? = some 45 ∨ s.head? = some 43
    let s := if signed then s.tail else s
    if signed ∧ s.length < 1 then (0, some (syntaxError "Atoi" s0))
    else
      let r := Atoi.loop s0 s 0
      match r.2 with
      | some e => (0, some e)
      | none => (if s0.head? = some 45 then wrapInt64 (-r.1) else r.1, none)
  else
    -- Slow path for invalid, big, or underscored integers.
    let r := ParseInt s 0
    let err := match r.2 with
      | some (.NumError _ num e) => some (Error.NumError "Atoi" num e)
      | e => e
    (wrapInt64 r.1, err)

end strconv

/-! ## Slices -/

/-- A Go slice: the backing array from the slice start up to its capacity,
and the length. The elements of the slice are the first `len` of `backing`;
`cap` is `backing.length`. -/
structure Slice (α : Type) where
  backing : List α
  len : Nat
  deriving DecidableEq, Repr

namespace Slice

/-- The elements of the slice, `s[0] ... s[len-1]`. -/
def toList {α : Type} (s : Slice α) : List α := s.backing.take s.len

/-- The capacity `cap(s)`. -/
def cap {α : Type} (s : Slice α) : Nat := s.backing.length

/-- The zero value of a slice type, `nil`. -/
def nil {α : Type} : Slice α := ⟨[], 0⟩

/-- The builtin `append(s, x)`: writes in place when there is spare capacity,
otherwise copies the elements to a fresh array (spare capacity of the fresh
array beyond the appended element is not represented). -/
def append {α : Type} (s : Slice α) (x : α) : Slice α :=
  if s.len < s.cap then ⟨s.backing.set s.len x, s.len + 1⟩
  else ⟨s.toList ++ [x], s.len + 1⟩

/-- The slice expression `s[:n]`: legal up to the capacity, a run-time panic
(`none`) beyond it. -/
def sliceTo {α : Type} (s : Slice α) (n : Nat) : Option (Slice α) :=
  if n ≤ s.cap then some ⟨s.backing, n⟩ else none

end Slice

/-! ## Package `alliance` (types) -/

namespace alliance

/-- Modelled from the spec: the declaration of `alliance.Data` is not part of
the sources; its fields are those of the snapshot of the output document
(`Date`, `Tag`, `Name`, `Power`, `GiftLevel`, `MemberCount`), the last three
being `int64`, as the assignments in `ScanAlliance` require. -/
structure Data where
  Date : GoString
  Tag : GoString
  Name : GoString
  Power : Int
  GiftLevel : Int
  MemberCount : Int
  deriving DecidableEq, Repr

/-- Modelled from the spec: the declaration of `alliance.Alliance` is not part
of the sources; its fields are those of the output document (`Server`, `Tag`,
`Name`, `Data`), `Server` being `int64` and `Data` a slice of `Data`. -/
structure Alliance where
  Server : Int
  Tag : GoString
  Name : GoString
  Data : Slice Data
  deriving DecidableEq, Repr

/-- The zero value of `Data` (`var d alliance.Data`). -/
def Data.zero : Data := ⟨[], [], [], 0, 0, 0⟩

/-- The zero value of `Alliance` (`var a alliance.Alliance`). -/
def Alliance.zero : Alliance := ⟨0, [], [], Slice.nil⟩

/-- The history of a record as a list (what serialisation sees). -/
def Alliance.history (a : Alliance) : List alliance.Data := a.Data.toList

end alliance

open alliance

/-! ## Package `time` -/

namespace time

/-- The calendar reading of an instant in the local zone: the date, and the
time of day in nanoseconds since midnight. -/
structure Time where
  year : Int
  month : Nat
  day : Nat
  clock : Nat
  deriving DecidableEq, Repr

/-- The decimal digits of a natural number, as bytes. -/
def decimal (n : Nat) : GoString := (Nat.toDigits 10 n).map (fun c => Fin.ofNat c.toNat)

/-- Go `time.appendInt` on an empty buffer: the decimal form of `x`,
zero-padded to `width` digits, after a minus sign when `x` is negative. -/
def appendInt (x : Int) (width : Nat) : GoString :=
  let u := x.natAbs
  let ds := decimal u
  (if x < 0 then [45] else []) ++ List.replicate (width - ds.length) 48 ++ ds

/-- The result of `t.Format(time.DateOnly)`, the layout `2006-01-02`. -/
def Time.FormatDateOnly (t : Time) : GoString :=
  appendInt t.year 4 ++ [45] ++ appendInt t.month 2 ++ [45] ++ appendInt t.day 2

end time

/-! ## Events, outcomes and the run of a function -/

/-- A call that leaves the file `scan.go`, with the arguments that matter. -/
inductive Event where
  | SetImageDensity (file : GoString) (density : Nat)
  | GetImageRect (px py rx ry : Nat)
  | PreProcessImage (f1 f2 f3 : Bool)
  | GetImageText (whitelist : List GoString)
  | EncodePNG (file : GoString)
  | Now
  | GetByTag (receiver : Alliance) (tag : GoString)
  | Printf (format : String) (args : List GoString)
  | MarshalIndent (v : Alliance)
  | WriteFile (name : GoString) (data : GoString) (perm : Nat)
  deriving DecidableEq, Repr

/-- How a Go function of result type `(T, error)` ends. -/
inductive Outcome (α : Type) where
  | ok (val : α)
  | err (e : Error)
  | panic
  deriving DecidableEq, Repr

/-- The run of a function: how it ends and the calls it made, in order. -/
structure Run (α : Type) where
  out : Outcome α
  log : List Event
  deriving DecidableEq, Repr

namespace Run

/-- Sequencing: the second part runs only if the first ended normally. -/
def bind {α β : Type} (x : Run α) (f : α → Run β) : Run β :=
  match x.out with
  | .ok a => ⟨(f a).out, x.log ++ (f a).log⟩
  | .err e => ⟨.err e, x.log⟩
  | .panic => ⟨.panic, x.log⟩

instance : Monad Run where
  pure a := ⟨.ok a, []⟩
  bind := Run.bind

/-- The statement `return zero, e`. -/
def fail {α : Type} (e : Error) : Run α := ⟨.err e, []⟩

/-- A run-time panic. -/
def abort {α : Type} : Run α := ⟨.panic, []⟩

/-- A call of an external function of result type `(T, error)`, followed by
`if err != nil { return zero, err }`. -/
def call {α : Type} (ev : Event) (r : Except Error α) : Run α :=
  match r with
  | .ok a => ⟨.ok a, [ev]⟩
  | .error e => ⟨.err e, [ev]⟩

/-- A call of an external function that cannot fail. -/
def emit {α : Type} (ev : Event) (a : α) : Run α := ⟨.ok a, [ev]⟩

end Run

/-! ## The environment -/

/-- What the scan takes from outside `scan.go`: the package-level variables
set from the command line, and the results of the external calls. `Image` is
the type of `image.Image` values. -/
structure Env (Image : Type) where
  /-- The variable `imageFile` (flag `--image`). -/
  imageFile : GoString
  /-- The variable `inputFile` of package `alliancecmd`. -/
  inputFile : GoString
  /-- The variable `outputFile` (flag `--output`). -/
  outputFile : GoString
  /-- The variable `server` (flag `--server`). -/
  server : Int
  /-- Result of `scanner.SetImageDensity(file, density)`. -/
  SetImageDensity : GoString → Nat → Except Error Image
  /-- Result of `scanner.GetImageRect(px, py, rx, ry, img)`. -/
  GetImageRect : Nat → Nat → Nat → Nat → Image → Image
  /-- Result of `scanner.PreProcessImage(img, f1, f2, f3)`. -/
  PreProcessImage : Image → Bool → Bool → Bool → Except Error Image
  /-- Result of `scanner.GetImageText(img, whitelist...)`. -/
  GetImageText : Image → List GoString → Except Error GoString
  /-- Result of `os.Create(file)` followed by `png.Encode(outf, img)`: the
  error of `png.Encode`, if any. -/
  EncodePNG : GoString → Image → Option Error
  /-- Result of `time.Now()`. -/
  Now : time.Time
  /-- Result of `a.GetByTag(tag)`: the receiver after the call, and the error. -/
  GetByTag : Alliance → GoString → Alliance × Option Error
  /-- Result of `json.MarshalIndent(a, "", "\t")`, a function of the exported
  content of the record. -/
  MarshalIndent : Int → GoString → GoString → List Data → Except Error GoString
  /-- Result of `os.WriteFile(name, data, perm)`. -/
  WriteFile : GoString → GoString → Nat → Option Error

/-! ## The external calls, logged -/

section calls

variable {Image : Type} (env : Env Image)

/-- The call `scanner.SetImageDensity(file, density)`. -/
def scanner.SetImageDensity (file : GoString) (density : Nat) : Run Image :=
  Run.call (.SetImageDensity file density) (env.SetImageDensity file density)

/-- The call `scanner.GetImageRect(px, py, rx, ry, img)`. -/
def scanner.GetImageRect (px py rx ry : Nat) (img : Image) : Run Image :=
  Run.emit (.GetImageRect px py rx ry) (env.GetImageRect px py rx ry img)

/-- The call `scanner.PreProcessImage(img, f1, f2, f3)`. -/
def scanner.PreProcessImage (img : Image) (f1 f2 f3 : Bool) : Run Image :=
  Run.call (.PreProcessImage f1 f2 f3) (env.PreProcessImage img f1 f2 f3)

/-- The call `scanner.GetImageText(img, whitelist...)`. -/
def scanner.GetImageText (img : Image) (whitelist : List GoString) : Run GoString :=
  Run.call (.GetImageText whitelist) (env.GetImageText img whitelist)

/-- The statements `outf, _ := os.Create(file); defer outf.Close();
err = png.Encode(outf, img); if err != nil ...`. -/
def png.Encode (file : GoString) (img : Image) : Run Unit :=
  Run.call (.EncodePNG file)
    (match env.EncodePNG file img with
     | some e => .error e
     | none => .ok ())

/-- The call `time.Now()`. -/
def time.Now : Run time.Time := Run.emit .Now env.Now

/-- The call `a.GetByTag(tag)` on the addressable variable `a`: the new value
of `a` and the returned error. -/
def alliance.GetByTag (a : Alliance) (tag : GoString) : Run (Alliance × Option Error) :=
  Run.emit (.GetByTag a tag) (env.GetByTag a tag)

/-- The call `fmt.Printf(format, args...)`. -/
def fmt.Printf (format : String) (args : List GoString) : Run Unit :=
  Run.emit (.Printf format args) ()

/-- The call `json.MarshalIndent(a, "", "\t")`. -/
def json.MarshalIndent (a : Alliance) : Run GoString :=
  Run.call (.MarshalIndent a) (env.MarshalIndent a.Server a.Tag a.Name a.history)

/-- The call `os.WriteFile(name, data, perm)`. -/
def os.WriteFile (name data : GoString) (perm : Nat) : Run Unit :=
  Run.call (.WriteFile name data perm)
    (match env.WriteFile name data perm with
     | some e => .error e
     | none => .ok ())

end calls

/-! ## Package `alliancecmd`: `scan.go` -/

namespace alliancecmd

variable {Image : Type} (env : Env Image)

/-- The whitelist of the tag field. -/
def tagWhitelist : GoString :=
  str "<>0123456789abcdefghijklmnopqrstuvwxyzABCDEFGHIJKLMNOPQRSTUVWXYZ"

/-- The whitelist of the numeric fields. -/
def digitWhitelist : GoString := str "0123456789"

/-- `GetAllianceTagText` gets the alliance tag text from an alliance
screenshot. -/
def GetAllianceTagText (img : Image) : Run GoString := do
  -- Alliance tag rect
  let px := 157
  let py := 292
  let rx := 48
  let ry := 20
  let img ← scanner.GetImageRect env px py rx ry img
  let img ← scanner.PreProcessImage env img false false false
  scanner.GetImageText env img [tagWhitelist]

/-- `GetAllianceNameText` gets the alliance name text from an alliance
screenshot. -/
def GetAllianceNameText (img : Image) : Run GoString := do
  let px := 204
  let py := 290
  let rx := 160
  let ry := 24
  let img ← scanner.GetImageRect env px py rx ry img
  let img ← scanner.PreProcessImage env img false false false
  png.Encode env (env.imageFile ++ str "-name.png") img
  scanner.GetImageText env img []

/-- The statements `n, err := strconv.Atoi(t); if err != nil { return 0, err };
return n, nil` that end the three numeric functions. -/
def atoiOrFail (t : GoString) : Run Int :=
  match (strconv.Atoi t).2 with
  | some e => Run.fail e
  | none => pure (strconv.Atoi t).1

/-- `GetAlliancePowerText` gets the alliance power text from an alliance
screenshot. -/
def GetAlliancePowerText (img : Image) : Run Int := do
  let px := 280
  let py := 317
  let rx := 96
  let ry := 18
  let img ← scanner.GetImageRect env px py rx ry img
  let img ← scanner.PreProcessImage env img true true true
  let tpower ← scanner.GetImageText env img [digitWhitelist]
  let power ← atoiOrFail tpower
  return power

/-- `GetAllianceGiftText` gets the alliance gift level text from an alliance
screenshot. -/
def GetAllianceGiftText (img : Image) : Run Int := do
  let px := 356
  let py := 351
  let rx := 19
  let ry := 15
  let img ← scanner.GetImageRect env px py rx ry img
  let img ← scanner.PreProcessImage env img true true true
  let tgift ← scanner.GetImageText env img [digitWhitelist]
  let gift ← atoiOrFail tgift
  return gift

/-- `GetAllianceMemberText` gets the alliance member count text from an
alliance screenshot. -/
def GetAllianceMemberText (img : Image) : Run Int := do
  let px := 316
  let py := 366
  let rx := 28
  let ry := 16
  let img ← scanner.GetImageRect env px py rx ry img
  let img ← scanner.PreProcessImage env img true true true
  let tmemcount ← scanner.GetImageText env img [digitWhitelist]
  let memcount ← atoiOrFail tmemcount
  return memcount

/-- The format of the message printed for a new alliance. -/
def newFormat : String :=
  "A new alliance will need to be created from this data.  Please run \x27wartracker-cli alliance new -o %s\x27 after verifying the data\n"

/-- The format of the message printed for an existing alliance. -/
def existingFormat : String :=
  "This alliance already exists. To add the new data run \x27wartracker-cli alliance add -o %s\x27 to add the new data.\n"

/-- `ScanAlliance` pre-processes the given image file and scans it into an
`alliance.Alliance`. -/
def ScanAlliance : Run Alliance := do
  let a : Alliance := Alliance.zero
  let d : Data := Data.zero
  let img ← scanner.SetImageDensity env env.inputFile 300
  -- Setup alliance
  let tag ← GetAllianceTagText env img
  let name ← GetAllianceNameText env img
  let power ← GetAlliancePowerText env img
  let gift ← GetAllianceGiftText env img
  let memcount ← GetAllianceMemberText env img
  let now ← time.Now env
  let d := { d with Date := now.FormatDateOnly }
  let d := { d with Tag := tag }
  let d := { d with Name := name }
  let d := { d with Power := int64 power }
  let d := { d with GiftLevel := int64 gift }
  let d := { d with MemberCount := int64 memcount }
  let a := { a with Data := a.Data.append d }
  let a := { a with Server := env.server }
  let r ← alliance.GetByTag env a d.Tag
  let a := r.1
  (match r.2 with
   | some err =>
     if err ≠ Error.ErrNoRows then Run.fail err
     else fmt.Printf newFormat [env.outputFile]
   | none => fmt.Printf existingFormat [env.outputFile])
  let data ← (match a.Data.sliceTo 1 with
    | some s => pure s
    | none => Run.abort)
  let a := { a with Data := data }
  let j ← json.MarshalIndent env a
  os.WriteFile env env.outputFile j 0o644
  return a

end alliancecmd

/-! ## Definitions used to state the properties -/

open strconv alliancecmd

/-- A byte is an ASCII decimal digit `0`-`9`. -/
def isDigit (b : Byte) : Prop := 48 ≤ b.val ∧ b.val ≤ 57

instance : DecidablePred isDigit := fun b => by unfold isDigit; infer_instance

/-- The number a string of decimal digits denotes, continuing from `n`. -/
def decFold (n : Nat) (s : GoString) : Nat :=
  s.foldl (fun acc b => acc * 10 + (b.val - 48)) n

/-- The number a string of decimal digits denotes (leading zeros allowed). -/
def decimalValue (s : GoString) : Nat := decFold 0 s

/-- The text after removal of one leading sign `+` or `-`, if there is one. -/
def unsigned (s : GoString) : GoString :=
  if s.head? = some 43 ∨ s.head? = some 45 then s.tail else s

/-- A byte is ASCII white space (tab, line feed, vertical tab, form feed,
carriage return, space). -/
def isSpace (b : Byte) : Bool :=
  b.val = 9 ∨ b.val = 10 ∨ b.val = 11 ∨ b.val = 12 ∨ b.val = 13 ∨ b.val = 32

/-- The text with leading and trailing white space removed, the trimming the
specification describes for text fields. -/
def TrimSpace (s : GoString) : GoString :=
  ((s.dropWhile isSpace).reverse.dropWhile isSpace).reverse

/-- The three numeric extraction functions, by index: 0 power, 1 gift level,
otherwise member count. -/
def numericField {Image : Type} (env : Env Image) (img : Image) : Nat → Run Int
  | 0 => GetAlliancePowerText env img
  | 1 => GetAllianceGiftText env img
  | _ => GetAllianceMemberText env img

/-- The text `scanner.GetImageText` returns to the numeric extraction function
of the given index, or the error that keeps the function from getting one. -/
def numericText {Image : Type} (env : Env Image) (img : Image) (k : Nat) :
    Except Error GoString :=
  let rect : Image :=
    match k with
    | 0 => env.GetImageRect 280 317 96 18 img
    | 1 => env.GetImageRect 356 351 19 15 img
    | _ => env.GetImageRect 316 366 28 16 img
  match env.PreProcessImage rect true true true with
  | .ok p => env.GetImageText p [digitWhitelist]
  | .error e => .error e

/-- The numeric field of a snapshot that the numeric extraction function of
the given index fills: 0 `Power`, 1 `GiftLevel`, otherwise `MemberCount`. -/
def numericSlot (d : Data) : Nat → Int
  | 0 => d.Power
  | 1 => d.GiftLevel
  | _ => d.MemberCount

/-- A run with its result forgotten. -/
def Run.void {α : Type} (x : Run α) : Run Unit :=
  ⟨match x.out with
    | .ok _ => .ok ()
    | .err e => .err e
    | .panic => .panic,
   x.log⟩

/-- The five extractions of `ScanAlliance` in their order: 0 tag, 1 name,
2 power, 3 gift level, otherwise member count. -/
def field {Image : Type} (env : Env Image) (img : Image) : Nat → Run Unit
  | 0 => (GetAllianceTagText env img).void
  | 1 => (GetAllianceNameText env img).void
  | 2 => (GetAlliancePowerText env img).void
  | 3 => (GetAllianceGiftText env img).void
  | _ => (GetAllianceMemberText env img).void

/-- The call `scanner.GetImageRect` with which the extraction of a field
starts. -/
def fieldRect : Nat → Event
  | 0 => .GetImageRect 157 292 48 20
  | 1 => .GetImageRect 204 290 160 24
  | 2 => .GetImageRect 280 317 96 18
  | 3 => .GetImageRect 356 351 19 15
  | _ => .GetImageRect 316 366 28 16

/-- All the calls the extraction of a field can make. -/
def fieldEvents {Image : Type} (env : Env Image) : Nat → List Event
  | 0 => [.GetImageRect 157 292 48 20, .PreProcessImage false false false,
          .GetImageText [tagWhitelist]]
  | 1 => [.GetImageRect 204 290 160 24, .PreProcessImage false false false,
          .EncodePNG (env.imageFile ++ str "-name.png"), .GetImageText []]
  | 2 => [.GetImageRect 280 317 96 18, .PreProcessImage true true true,
          .GetImageText [digitWhitelist]]
  | 3 => [.GetImageRect 356 351 19 15, .PreProcessImage true true true,
          .GetImageText [digitWhitelist]]
  | _ => [.GetImageRect 316 366 28 16, .PreProcessImage true true true,
          .GetImageText [digitWhitelist]]

/-- The event is a call of `GetByTag`. -/
def Event.isGetByTag : Event → Bool
  | .GetByTag _ _ => true
  | _ => false

/-- The event is a call of `os.WriteFile`. -/
def Event.isWriteFile : Event → Bool
  | .WriteFile _ _ _ => true
  | _ => false

/-- The event is a call of `fmt.Printf`. -/
def Event.isPrintf : Event → Bool
  | .Printf _ _ => true
  | _ => false

/-- The event is a call of `json.MarshalIndent`. -/
def Event.isMarshalIndent : Event → Bool
  | .MarshalIndent _ => true
  | _ => false

/-- The record `a` of `ScanAlliance` at the call of `GetByTag` (after lines
198-205), as a function of the extracted fields. -/
def assembled {Image : Type} (env : Env Image) (tag name : GoString)
    (power gift memcount : Int) : Alliance :=
  ⟨env.server, [], [],
    ⟨[⟨env.Now.FormatDateOnly, tag, name, int64 power, int64 gift, int64 memcount⟩], 1⟩⟩

/-- The last statements of `ScanAlliance` (lines 217-228), `a` being the record
as the lookup left it: truncation of the history to its first entry,
serialisation, writing of the output file, return of the record. -/
def serialize {Image : Type} (env : Env Image) (a : Alliance) : Run Alliance := do
  let data ← (match a.Data.sliceTo 1 with
    | some s => pure s
    | none => Run.abort)
  let a := { a with Data := data }
  let j ← json.MarshalIndent env a
  os.WriteFile env env.outputFile j 0o644
  return a

/-- The statements of `ScanAlliance` that follow the call of `GetByTag` (lines
208-228), as a function of the result `r` of the call. -/
def afterLookup {Image : Type} (env : Env Image) (r : Alliance × Option Error) :
    Run Alliance := do
  (match r.2 with
   | some err =>
     if err ≠ Error.ErrNoRows then Run.fail err
     else fmt.Printf newFormat [env.outputFile]
   | none => fmt.Printf existingFormat [env.outputFile])
  serialize env r.1

/-- The statements of `ScanAlliance` up to the end of the five extractions
(lines 171-196): the five extracted values. -/
def extraction {Image : Type} (env : Env Image) :
    Run (GoString × GoString × Int × Int × Int) := do
  let img ← scanner.SetImageDensity env env.inputFile 300
  let tag ← GetAllianceTagText env img
  let name ← GetAllianceNameText env img
  let power ← GetAlliancePowerText env img
  let gift ← GetAllianceGiftText env img
  let memcount ← GetAllianceMemberText env img
  return (tag, name, power, gift, memcount)

/-- The calls `ScanAlliance` makes up to the end of the five extractions. -/
def extractionLog {Image : Type} (env : Env Image) (img : Image) : List Event :=
  .SetImageDensity env.inputFile 300 ::
    ((GetAllianceTagText env img).log ++ (GetAllianceNameText env img).log ++
      (GetAlliancePowerText env img).log ++ (GetAllianceGiftText env img).log ++
      (GetAllianceMemberText env img).log)

/-- Modelled from the spec: the method `GetByTag` of package `alliance` is not
part of the sources. The specification (AllianceMatcher) describes the lookup
as a pure classification step that yields not-found, a record, or a failure,
and does not alter the output of the pipeline: the receiver is left as it was
and only the error `classify a tag` is returned. -/
def pureLookup (classify : Alliance → GoString → Option Error) :
    Alliance → GoString → Alliance × Option Error :=
  fun a tag => (a, classify a tag)

/-! ## Concrete environments -/

/-- An environment in which every external call succeeds: images are numbers,
the image of a region is the `px` of the region, and `GetImageText` returns the
given text for each of the five regions. -/
def sampleEnv (tagText nameText powerText giftText memberText : GoString)
    (lookup : Alliance → GoString → Alliance × Option Error) : Env Nat where
  imageFile := str "alliance.png"
  inputFile := str "alliance.png"
  outputFile := str "alliance.json"
  server := 1
  SetImageDensity := fun _ _ => .ok 0
  GetImageRect := fun px _ _ _ _ => px
  PreProcessImage := fun i _ _ _ => .ok i
  GetImageText := fun i _ =>
    if i = 157 then .ok tagText else if i = 204 then .ok nameText
    else if i = 280 then .ok powerText else if i = 356 then .ok giftText else .ok memberText
  EncodePNG := fun _ _ => none
  Now := ⟨2024, 3, 9, 43200⟩
  GetByTag := lookup
  MarshalIndent := fun _ tag name data =>
    .ok (tag ++ [10] ++ name ++ [10] ++ (data.map (fun d => d.Tag ++ [10] ++ d.Name)).flatten)
  WriteFile := fun _ _ _ => none

/-- A lookup that finds nothing and leaves the record as it is. -/
def lookupNotFound : Alliance → GoString → Alliance × Option Error :=
  pureLookup (fun _ _ => some .ErrNoRows)

/-- A lookup that finds the alliance and leaves the record as it is. -/
def lookupFound : Alliance → GoString → Alliance × Option Error :=
  pureLookup (fun _ _ => none)

/-- A lookup that fails with an error other than `sql.ErrNoRows`. -/
def lookupBroken : Alliance → GoString → Alliance × Option Error :=
  pureLookup (fun _ _ => some (.other 7))

/-- A scan of an alliance unknown to the store. -/
def newScanEnv : Env Nat :=
  sampleEnv (str "ABC") (str "Alpha Bravo") (str "1234567") (str "7") (str "99") lookupNotFound

/-- A scan of an alliance known to the store. -/
def existingScanEnv : Env Nat :=
  sampleEnv (str "ABC") (str "Alpha Bravo") (str "1234567") (str "7") (str "99") lookupFound

/-- A scan during which the store fails. -/
def brokenStoreEnv : Env Nat :=
  sampleEnv (str "ABC") (str "Alpha Bravo") (str "1234567") (str "7") (str "99") lookupBroken

/-- A scan whose power region is read with thousands separators. -/
def commaEnv : Env Nat :=
  sampleEnv (str "ABC") (str "Alpha Bravo") (str "1,234,567") (str "7") (str "99") lookupNotFound

/-- A scan whose power and gift regions are read with a sign. -/
def signedEnv : Env Nat :=
  sampleEnv (str "ABC") (str "Alpha Bravo") (str "-5") (str "+5") (str "99") lookupNotFound

/-- A scan whose power region is read as `12a`. -/
def letterEnv : Env Nat :=
  sampleEnv (str "ABC") (str "Alpha Bravo") (str "12a") (str "7") (str "99") lookupNotFound

/-- A scan whose tag and name regions are read with surrounding white space. -/
def untrimmedEnv : Env Nat :=
  sampleEnv (str " ABC\n") (str "Alpha Bravo ") (str "1234567") (str "7") (str "99")
    lookupNotFound

/-- A scan whose power region is read as `2 ^ 63`. -/
def overflowEnv : Env Nat :=
  sampleEnv (str "ABC") (str "Alpha Bravo") (str "9223372036854775808") (str "7") (str "99")
    lookupNotFound

/-- A scan whose power region cannot be pre-processed. -/
def powerFailsEnv : Env Nat :=
  { newScanEnv with
    PreProcessImage := fun i _ _ _ => if i = 280 then .error (.other 3) else .ok i }

/-! ## Lemmas: `strconv.Atoi` -/

theorem wrapInt64_of_range (x : Int) (h1 : -2 ^ 63 ≤ x) (h2 : x < 2 ^ 63) :
    wrapInt64 x = x := by
  unfold wrapInt64; omega

set_option maxRecDepth 100000 in
theorem byte_sub48 : ∀ b : Byte, isDigit b → (b - 48 : Byte).val = b.val - 48 := by
  unfold isDigit; decide

set_option maxRecDepth 100000 in
theorem byte_sub48_gt : ∀ b : Byte, ¬ isDigit b → (b - 48 : Byte).val > 9 := by
  unfold isDigit; decide

set_option maxRecDepth 100000 in
theorem digit_of_isDigit : ∀ b : Byte, isDigit b → ParseUint.digit b = some (b - 48) := by
  unfold isDigit; decide

set_option maxRecDepth 100000 in
theorem digit_of_not_isDigit : ∀ b : Byte, ¬ isDigit b →
    (ParseUint.digit b).all (fun d => decide (10 ≤ d.val)) = true := by
  unfold isDigit; decide

theorem decFold_ge (s : GoString) : ∀ n, n ≤ decFold n s := by
  induction s with
  | nil => intro n; simp [decFold]
  | cons b rest ih =>
    intro n
    have h := ih (n * 10 + (b.val - 48))
    simp only [decFold, List.foldl_cons] at h ⊢
    omega

theorem decFold_lt (s : GoString) (hs : ∀ b ∈ s, isDigit b) :
    ∀ n, decFold n s < (n + 1) * 10 ^ s.length := by
  induction s with
  | nil => intro n; simp [decFold]
  | cons b rest ih =>
    intro n
    have hb := hs b (List.mem_cons_self _ _)
    have h := ih (fun c hc => hs c (List.mem_cons_of_mem _ hc)) (n * 10 + (b.val - 48))
    simp only [decFold, List.foldl_cons, List.length_cons] at h ⊢
    unfold isDigit at hb
    have h2 : (n * 10 + (b.val - 48) + 1) * 10 ^ rest.length ≤ (n + 1) * 10 ^ (rest.length + 1) := by
      have e : (n + 1) * 10 ^ (rest.length + 1) = ((n + 1) * 10) * 10 ^ rest.length := by ring
      rw [e]
      apply Nat.mul_le_mul_right
      omega
    omega

/-- The fast-path loop on a run of digits that stays below `2 ^ 63`. -/
theorem Atoi_loop_digits (s0 : GoString) (s : GoString) (hs : ∀ b ∈ s, isDigit b) :
    ∀ n : Nat, decFold n s < 2 ^ 63 →
      Atoi.loop s0 s (n : Int) = (((decFold n s : Nat) : Int), none) := by
  induction s with
  | nil => intro n _; simp [Atoi.loop, decFold]
  | cons b rest ih =>
    intro n hn
    have hb := hs b (List.mem_cons_self _ _)
    have hsub := byte_sub48 b hb
    have hle : (b - 48 : Byte).val ≤ 9 := by unfold isDigit at hb; omega
    have hfold : decFold n (b :: rest) = decFold (n * 10 + (b.val - 48)) rest := by
      simp [decFold]
    have hge := decFold_ge rest (n * 10 + (b.val - 48))
    rw [hfold] at hn ⊢
    have hstep : wrapInt64 (wrapInt64 ((n : Int) * 10) + (((b - 48 : Byte).val : Nat) : Int))
        = ((n * 10 + (b.val - 48) : Nat) : Int) := by
      rw [hsub]
      have h1 : wrapInt64 ((n : Int) * 10) = (n : Int) * 10 := by
        apply wrapInt64_of_range <;> omega
      rw [h1]
      rw [wrapInt64_of_range] <;> push_cast <;> omega
    have := ih (fun c hc => hs c (List.mem_cons_of_mem _ hc)) (n * 10 + (b.val - 48)) hn
    simp only [Atoi.loop]
    rw [if_neg (by omega), hstep, this]

/-- The fast-path loop on a string with a byte that is not a digit. -/
theorem Atoi_loop_bad (s0 : GoString) (s : GoString) (hs : ∃ b ∈ s, ¬ isDigit b) :
    ∀ n : Int, Atoi.loop s0 s n = (0, some (syntaxError "Atoi" s0)) := by
  induction s with
  | nil => obtain ⟨b, hb, _⟩ := hs; simp at hb
  | cons b rest ih =>
    intro n
    simp only [Atoi.loop]
    by_cases hb : isDigit b
    · obtain ⟨c, hc, hcd⟩ := hs
      have hc2 : c ∈ rest := by
        rcases List.mem_cons.mp hc with h | h
        · subst h; exact absurd hb hcd
        · exact h
      have hle : ¬ (b - 48 : Byte).val > 9 := by
        have := byte_sub48 b hb; unfold isDigit at hb; omega
      rw [if_neg hle]
      exact ih ⟨c, hc2, hcd⟩ _
    · rw [if_pos (byte_sub48_gt b hb)]

/-- The loop of `ParseUint` on a run of digits: the value if it fits `uint64`,
the range error otherwise. -/
theorem ParseUint_loop_digits (s0 : GoString) (s : GoString) (hs : ∀ b ∈ s, isDigit b) :
    ∀ n : Nat, n < 2 ^ 64 →
      ParseUint.loop s0 10 1844674407370955162 18446744073709551615 s n =
        if decFold n s < 2 ^ 64 then (decFold n s, none)
        else (18446744073709551615, some (rangeError "ParseUint" s0)) := by
  induction s with
  | nil =>
    intro n hn
    have e : decFold n [] = n := rfl
    rw [e, if_pos hn]
    rfl
  | cons b rest ih =>
    intro n hn
    have hb := hs b (List.mem_cons_self _ _)
    have hsub := byte_sub48 b hb
    have hd := digit_of_isDigit b hb
    have hle : (b - 48 : Byte).val ≤ 9 := by unfold isDigit at hb; omega
    have hfold : decFold n (b :: rest) = decFold (n * 10 + (b.val - 48)) rest := by
      simp [decFold]
    have hge := decFold_ge rest (n * 10 + (b.val - 48))
    have ih2 := ih (fun c hc => hs c (List.mem_cons_of_mem _ hc))
    rw [hfold]
    simp only [ParseUint.loop, hd]
    rw [if_neg (by omega)]
    by_cases hc : n ≥ 1844674407370955162
    · rw [if_pos hc, if_neg (by omega)]
    · rw [if_neg hc]
      have h1 : wrapUint64 (n * 10) = n * 10 := by unfold wrapUint64; omega
      simp only [h1, hsub]
      by_cases ho : n * 10 + (b.val - 48) < 2 ^ 64
      · have h2 : wrapUint64 (n * 10 + (b.val - 48)) = n * 10 + (b.val - 48) := by
          unfold wrapUint64; omega
        rw [h2, if_neg (by omega)]
        exact ih2 _ ho
      · have h2 : wrapUint64 (n * 10 + (b.val - 48)) < n * 10 := by
          unfold wrapUint64; omega
        rw [if_pos (Or.inl h2), if_neg (by omega)]

/-- The loop of `ParseUint` on a string with a byte that is not a digit ends
in one of its two errors. -/
theorem ParseUint_loop_bad (s0 : GoString) (s : GoString) (hs : ∃ b ∈ s, ¬ isDigit b) :
    ∀ n : Nat,
      ParseUint.loop s0 10 1844674407370955162 18446744073709551615 s n =
          (0, some (syntaxError "ParseUint" s0)) ∨
        ParseUint.loop s0 10 1844674407370955162 18446744073709551615 s n =
          (18446744073709551615, some (rangeError "ParseUint" s0)) := by
  induction s with
  | nil => obtain ⟨b, hb, _⟩ := hs; simp at hb
  | cons b rest ih =>
    intro n
    simp only [ParseUint.loop]
    by_cases hb : isDigit b
    · obtain ⟨c, hc, hcd⟩ := hs
      have hc2 : c ∈ rest := by
        rcases List.mem_cons.mp hc with h | h
        · subst h; exact absurd hb hcd
        · exact h
      rw [digit_of_isDigit b hb]
      simp only []
      split_ifs
      · left; rfl
      · right; rfl
      · right; rfl
      · exact ih ⟨c, hc2, hcd⟩ _
    · have hd := digit_of_not_isDigit b hb
      cases hdb : ParseUint.digit b with
      | none => left; rfl
      | some d =>
        rw [hdb] at hd
        simp only [Option.all_some, decide_eq_true_eq] at hd
        simp only []
        rw [if_pos (by omega)]
        left; trivial

theorem ParseUint_consts (s : GoString) (hne : s ≠ []) :
    ParseUint s 0 = ParseUint.loop s 10 1844674407370955162 18446744073709551615 s 0 := by
  simp [ParseUint, hne, intSize, maxUint64, wrapUint64]


theorem Atoi_fast (s : GoString) (h1 : 0 < s.length) (h2 : s.length < 19) :
    Atoi s =
      if (s.head? = some 45 ∨ s.head? = some 43) ∧ s.tail.length < 1 then
        (0, some (syntaxError "Atoi" s))
      else
        match (Atoi.loop s (if s.head? = some 45 ∨ s.head? = some 43 then s.tail else s) 0).2 with
        | some e => (0, some e)
        | none =>
          (if s.head? = some 45 then
              wrapInt64 (-(Atoi.loop s (if s.head? = some 45 ∨ s.head? = some 43 then s.tail else s) 0).1)
            else (Atoi.loop s (if s.head? = some 45 ∨ s.head? = some 43 then s.tail else s) 0).1,
           none) := by
  have hc : (intSize = 32 ∧ (0 < s.length ∧ s.length < 10)) ∨
      (intSize = 64 ∧ (0 < s.length ∧ s.length < 19)) := Or.inr ⟨rfl, h1, h2⟩
  simp only [Atoi]
  rw [if_pos hc]
  by_cases hsg : s.head? = some 45 ∨ s.head? = some 43
  · simp [hsg]
  · simp [hsg]

theorem Atoi_slow (s : GoString) (h : ¬ (0 < s.length ∧ s.length < 19)) :
    Atoi s =
      (wrapInt64 (ParseInt s 0).1,
        match (ParseInt s 0).2 with
        | some (.NumError _ num e) => some (Error.NumError "Atoi" num e)
        | e => e) := by
  have hc : ¬ ((intSize = 32 ∧ (0 < s.length ∧ s.length < 10)) ∨
      (intSize = 64 ∧ (0 < s.length ∧ s.length < 19))) := by
    rintro (⟨h32, _⟩ | ⟨_, h64⟩)
    · simp [intSize] at h32
    · exact h h64
  simp only [Atoi]
  rw [if_neg hc]


theorem head_of_digits (s : GoString) (hs : ∀ b ∈ s, isDigit b) :
    s.head? ≠ some 43 ∧ s.head? ≠ some 45 := by
  cases s with
  | nil => simp
  | cons b rest =>
    have hb := hs b (List.mem_cons_self _ _)
    unfold isDigit at hb
    simp only [List.head?_cons, ne_eq, Option.some.injEq]
    constructor <;> (rintro rfl; revert hb; decide)

/-- `ParseInt` on a non-empty run of digits. -/
theorem ParseInt_digits (s : GoString) (hne : s ≠ []) (hs : ∀ b ∈ s, isDigit b) :
    ParseInt s 0 =
      if decimalValue s < 2 ^ 63 then (((decimalValue s : Nat) : Int), none)
      else ((2 ^ 63 - 1 : Int), some (rangeError "ParseInt" s)) := by
  have hh := head_of_digits s hs
  have hu : (if s.head? = some 43 ∨ s.head? = some 45 then s.tail else s) = s := by
    rw [if_neg (fun h1 => h1.elim hh.1 hh.2)]
  have hl := ParseUint_loop_digits s s hs 0 (by norm_num)
  simp only [ParseInt]
  rw [if_neg hne, hu, ParseUint_consts s hne, hl]
  have hneg : (decide (s.head? = some 45)) = false := by simpa using hh.2
  unfold decimalValue
  by_cases h64 : decFold 0 s < 2 ^ 64
  · rw [if_pos h64]
    by_cases h63 : decFold 0 s < 2 ^ 63
    · have hw : wrapInt64 ((decFold 0 s : Nat) : Int) = ((decFold 0 s : Nat) : Int) := by
        apply wrapInt64_of_range <;> omega
      rw [if_pos h63]
      norm_num at h63
      simp [hneg, intSize, wrapUint64, h63, hw]
    · rw [if_neg h63]
      norm_num at h63
      simp [hneg, intSize, wrapUint64, h63, wrapInt64, rangeError]
  · rw [if_neg h64]
    have h63 : ¬ decFold 0 s < 2 ^ 63 := by omega
    rw [if_neg h63]
    simp [hneg, intSize, wrapUint64, wrapInt64, rangeError]

/-- `ParseInt` on a string that has, after its sign, a byte that is not a
digit. -/
theorem ParseInt_bad (s : GoString) (hs : ∃ b ∈ unsigned s, ¬ isDigit b) :
    ∃ k, (ParseInt s 0).2 = some (.NumError "ParseInt" s k) := by
  have hune : unsigned s ≠ [] := by
    obtain ⟨b, hb, _⟩ := hs
    exact List.ne_nil_of_mem hb
  have hne : s ≠ [] := by
    rintro rfl
    exact hune (by simp [unsigned])
  have hl := ParseUint_loop_bad (unsigned s) (unsigned s) hs 0
  have hc := ParseUint_consts (unsigned s) hune
  simp only [ParseInt]
  rw [if_neg hne]
  unfold unsigned at hc hl
  rw [hc]
  rcases hl with hl | hl
  · rw [hl]
    exact ⟨.ErrSyntax, rfl⟩
  · rw [hl]
    refine ⟨.ErrRange, ?_⟩
    by_cases hneg : s.head? = some 45
    · simp [hneg, intSize, wrapUint64, rangeError]
    · simp [hneg, intSize, wrapUint64, rangeError]


/-- `Atoi` on a non-empty run of digits: the value when it is at most
`2 ^ 63 - 1`, the range error otherwise. -/
theorem Atoi_digits (s : GoString) (hne : s ≠ []) (hs : ∀ b ∈ s, isDigit b) :
    Atoi s =
      if decimalValue s < 2 ^ 63 then (((decimalValue s : Nat) : Int), none)
      else ((2 ^ 63 - 1 : Int), some (.NumError "Atoi" s .ErrRange)) := by
  have hh := head_of_digits s hs
  have hpos : 0 < s.length := List.length_pos.mpr hne
  by_cases hlen : s.length < 19
  · have hsg : ¬ (s.head? = some 45 ∨ s.head? = some 43) := fun h1 => h1.elim hh.2 hh.1
    have hlt := decFold_lt s hs 0
    have hpow : 10 ^ s.length ≤ 10 ^ 18 := Nat.pow_le_pow_right (by norm_num) (by omega)
    have hv : decFold 0 s < 2 ^ 63 := by
      have : (10 : Nat) ^ 18 < 2 ^ 63 := by norm_num
      omega
    have hl := Atoi_loop_digits s s hs 0 hv
    rw [Atoi_fast s hpos hlen, if_neg (fun h1 => hsg h1.1), if_neg hsg]
    simp only [Nat.cast_zero] at hl
    rw [hl]
    simp only [if_neg hh.2]
    unfold decimalValue
    rw [if_pos hv]
  · rw [Atoi_slow s (fun h1 => hlen h1.2), ParseInt_digits s hne hs]
    by_cases h63 : decimalValue s < 2 ^ 63
    · rw [if_pos h63, if_pos h63]
      simp only []
      rw [wrapInt64_of_range] <;> omega
    · rw [if_neg h63, if_neg h63]
      simp only [rangeError]
      rw [wrapInt64_of_range] <;> norm_num

/-- `Atoi` on a malformed text: empty, or empty after its sign, or with a byte
after the sign that is not a digit. -/
theorem Atoi_malformed (s : GoString)
    (h : s = [] ∨ unsigned s = [] ∨ ∃ b ∈ unsigned s, ¬ isDigit b) :
    ∃ k, (Atoi s).2 = some (.NumError "Atoi" s k) := by
  by_cases hfast : 0 < s.length ∧ s.length < 19
  · have hne : s ≠ [] := List.length_pos.mp hfast.1
    rw [Atoi_fast s hfast.1 hfast.2]
    by_cases hsg : s.head? = some 45 ∨ s.head? = some 43
    · have hu : unsigned s = s.tail := by
        unfold unsigned
        rw [if_pos (hsg.elim Or.inr Or.inl)]
      by_cases ht : s.tail.length < 1
      · rw [if_pos ⟨hsg, ht⟩]
        exact ⟨.ErrSyntax, rfl⟩
      · rw [if_neg (fun h1 => ht h1.2), if_pos hsg]
        have hbad : ∃ b ∈ s.tail, ¬ isDigit b := by
          rcases h with h | h | h
          · exact absurd h hne
          · rw [hu] at h; rw [h] at ht; simp at ht
          · rw [hu] at h; exact h
        rw [Atoi_loop_bad s s.tail hbad 0]
        exact ⟨.ErrSyntax, rfl⟩
    · have hu : unsigned s = s := by
        unfold unsigned
        rw [if_neg (fun h1 => hsg (h1.elim Or.inr Or.inl))]
      rw [if_neg (fun h1 => hsg h1.1), if_neg hsg]
      have hbad : ∃ b ∈ s, ¬ isDigit b := by
        rcases h with h | h | h
        · exact absurd h hne
        · rw [hu] at h; exact absurd h hne
        · rw [hu] at h; exact h
      rw [Atoi_loop_bad s s hbad 0]
      exact ⟨.ErrSyntax, rfl⟩
  · rw [Atoi_slow s hfast]
    by_cases hne : s = []
    · subst hne
      exact ⟨.ErrSyntax, rfl⟩
    · have hlen : 19 ≤ s.length := by
        have : 0 < s.length := List.length_pos.mpr hne
        omega
      have hbad : ∃ b ∈ unsigned s, ¬ isDigit b := by
        rcases h with h | h | h
        · exact absurd h hne
        · exfalso
          have h2 : (unsigned s).length = 0 := by rw [h]; rfl
          unfold unsigned at h2
          split_ifs at h2
          · rw [List.length_tail] at h2; omega
          · omega
        · exact h
      obtain ⟨k, hk⟩ := ParseInt_bad s hbad
      rw [hk]
      exact ⟨k, rfl⟩

/-! ## Lemmas: runs -/

theorem Run.bind_def {α β : Type} (x : Run α) (f : α → Run β) : x >>= f = Run.bind x f := rfl

theorem Run.pure_def {α : Type} (a : α) : (pure a : Run α) = ⟨.ok a, []⟩ := rfl

theorem Run.bind_mk_ok {α β : Type} (a : α) (l : List Event) (f : α → Run β) :
    Run.bind ⟨.ok a, l⟩ f = ⟨(f a).out, l ++ (f a).log⟩ := rfl

theorem Run.bind_mk_err {α β : Type} (e : Error) (l : List Event) (f : α → Run β) :
    Run.bind ⟨.err e, l⟩ f = ⟨.err e, l⟩ := rfl

theorem Run.bind_mk_panic {α β : Type} (l : List Event) (f : α → Run β) :
    Run.bind ⟨.panic, l⟩ f = ⟨.panic, l⟩ := rfl

theorem Run.call_ok {α : Type} (ev : Event) (a : α) : Run.call ev (.ok a) = ⟨.ok a, [ev]⟩ := rfl

theorem Run.call_error {α : Type} (ev : Event) (e : Error) :
    (Run.call ev (.error e) : Run α) = ⟨.err e, [ev]⟩ := rfl


theorem Run.bind_of_ok {α β : Type} {x : Run α} {a : α} (f : α → Run β) (h : x.out = .ok a) :
    x >>= f = ⟨(f a).out, x.log ++ (f a).log⟩ := by
  show Run.bind x f = _
  unfold Run.bind
  rw [h]

theorem Run.bind_of_err {α β : Type} {x : Run α} {e : Error} (f : α → Run β)
    (h : x.out = .err e) : x >>= f = ⟨.err e, x.log⟩ := by
  show Run.bind x f = _
  unfold Run.bind
  rw [h]

theorem Run.bind_of_panic {α β : Type} {x : Run α} (f : α → Run β)
    (h : x.out = .panic) : x >>= f = ⟨.panic, x.log⟩ := by
  show Run.bind x f = _
  unfold Run.bind
  rw [h]

theorem Run.bind_ok_inv {α β : Type} {x : Run α} {f : α → Run β} {b : β}
    (h : (x >>= f).out = .ok b) : ∃ a, x.out = .ok a ∧ (f a).out = .ok b := by
  cases hx : x.out with
  | ok a => rw [Run.bind_of_ok f hx] at h; exact ⟨a, rfl, h⟩
  | err e => rw [Run.bind_of_err f hx] at h; cases h
  | panic => rw [Run.bind_of_panic f hx] at h; cases h

theorem ScanAlliance_extracted {Image : Type} (env : Env Image) (img : Image)
    (tag name : GoString) (power gift memcount : Int)
    (hd : env.SetImageDensity env.inputFile 300 = .ok img)
    (ht : (GetAllianceTagText env img).out = .ok tag)
    (hn : (GetAllianceNameText env img).out = .ok name)
    (hp : (GetAlliancePowerText env img).out = .ok power)
    (hg : (GetAllianceGiftText env img).out = .ok gift)
    (hm : (GetAllianceMemberText env img).out = .ok memcount) :
    ScanAlliance env =
      ⟨(afterLookup env (env.GetByTag (assembled env tag name power gift memcount) tag)).out,
        extractionLog env img ++
          [.Now, .GetByTag (assembled env tag name power gift memcount) tag] ++
          (afterLookup env (env.GetByTag (assembled env tag name power gift memcount) tag)).log⟩ := by
  have hd2 : (scanner.SetImageDensity env env.inputFile 300).out = .ok img := by
    simp [scanner.SetImageDensity, hd, Run.call]
  have hdl : (scanner.SetImageDensity env env.inputFile 300).log =
      [.SetImageDensity env.inputFile 300] := by
    simp [scanner.SetImageDensity, hd, Run.call]
  unfold ScanAlliance
  simp only [Run.bind_of_ok _ hd2, Run.bind_of_ok _ ht, Run.bind_of_ok _ hn, Run.bind_of_ok _ hp,
    Run.bind_of_ok _ hg, Run.bind_of_ok _ hm, hdl]
  simp [time.Now, alliance.GetByTag, Run.emit, Run.bind_def, Run.bind, afterLookup, serialize, assembled,
    extractionLog, Alliance.zero, Data.zero, Slice.nil, Slice.append, Slice.cap, Slice.toList]


theorem Run.bind_assoc {α β γ : Type} (x : Run α) (f : α → Run β) (g : β → Run γ) :
    (x >>= f) >>= g = x >>= fun a => f a >>= g := by
  show Run.bind (Run.bind x f) g = Run.bind x (fun a => Run.bind (f a) g)
  rcases x with ⟨o, l⟩
  cases o with
  | ok a =>
    simp only [Run.bind]
    cases (f a).out <;> simp
  | err e => rfl
  | panic => rfl

theorem Run.pure_bind {α β : Type} (a : α) (f : α → Run β) : (pure a : Run α) >>= f = f a := by
  show Run.bind ⟨.ok a, []⟩ f = f a
  simp [Run.bind]

theorem ScanAlliance_eq_bind {Image : Type} (env : Env Image) :
    ScanAlliance env =
      extraction env >>= fun f =>
        (⟨(afterLookup env (env.GetByTag (assembled env f.1 f.2.1 f.2.2.1 f.2.2.2.1 f.2.2.2.2)
              f.1)).out,
          [.Now, .GetByTag (assembled env f.1 f.2.1 f.2.2.1 f.2.2.2.1 f.2.2.2.2) f.1] ++
            (afterLookup env (env.GetByTag
              (assembled env f.1 f.2.1 f.2.2.1 f.2.2.2.1 f.2.2.2.2) f.1)).log⟩ : Run Alliance) := by
  simp only [ScanAlliance, extraction, Run.bind_assoc, Run.pure_bind]
  simp [time.Now, alliance.GetByTag, Run.emit, Run.bind_def, Run.bind, afterLookup, serialize, assembled,
    Alliance.zero, Data.zero, Slice.nil, Slice.append, Slice.cap, Slice.toList]

theorem extraction_ok_inv {Image : Type} (env : Env Image) (tag name : GoString)
    (power gift memcount : Int)
    (h : (extraction env).out = .ok (tag, name, power, gift, memcount)) :
    ∃ img, env.SetImageDensity env.inputFile 300 = .ok img ∧
      (GetAllianceTagText env img).out = .ok tag ∧
      (GetAllianceNameText env img).out = .ok name ∧
      (GetAlliancePowerText env img).out = .ok power ∧
      (GetAllianceGiftText env img).out = .ok gift ∧
      (GetAllianceMemberText env img).out = .ok memcount ∧
      (extraction env).log = extractionLog env img := by
  unfold extraction at h
  obtain ⟨img, hd, h⟩ := Run.bind_ok_inv h
  obtain ⟨tag1, ht, h⟩ := Run.bind_ok_inv h
  obtain ⟨name1, hn, h⟩ := Run.bind_ok_inv h
  obtain ⟨power1, hp, h⟩ := Run.bind_ok_inv h
  obtain ⟨gift1, hg, h⟩ := Run.bind_ok_inv h
  obtain ⟨mem1, hm, h⟩ := Run.bind_ok_inv h
  simp only [Run.pure_def, Outcome.ok.injEq, Prod.mk.injEq] at h
  obtain ⟨rfl, rfl, rfl, rfl, rfl⟩ := h
  have hd1 : env.SetImageDensity env.inputFile 300 = .ok img := by
    unfold scanner.SetImageDensity Run.call at hd
    cases hx : env.SetImageDensity env.inputFile 300 with
    | ok i => rw [hx] at hd; simp at hd; rw [hd]
    | error e => rw [hx] at hd; simp at hd
  have hdl : (scanner.SetImageDensity env env.inputFile 300).log =
      [.SetImageDensity env.inputFile 300] := by
    simp [scanner.SetImageDensity, hd1, Run.call]
  refine ⟨img, hd1, ht, hn, hp, hg, hm, ?_⟩
  unfold extraction
  simp only [Run.bind_of_ok _ hd, Run.bind_of_ok _ ht, Run.bind_of_ok _ hn, Run.bind_of_ok _ hp,
    Run.bind_of_ok _ hg, Run.bind_of_ok _ hm, hdl]
  simp [extractionLog, Run.pure_def]

/-! ## Lemmas: the five extraction functions -/

theorem GetAllianceTagText_eq {Image : Type} (env : Env Image) (img : Image) :
    GetAllianceTagText env img =
      match env.PreProcessImage (env.GetImageRect 157 292 48 20 img) false false false with
      | .error e => ⟨.err e, [.GetImageRect 157 292 48 20, .PreProcessImage false false false]⟩
      | .ok p =>
        ⟨(match env.GetImageText p [tagWhitelist] with
          | .error e => .err e
          | .ok t => .ok t),
         [.GetImageRect 157 292 48 20, .PreProcessImage false false false,
          .GetImageText [tagWhitelist]]⟩ := by
  cases h1 : env.PreProcessImage (env.GetImageRect 157 292 48 20 img) false false false with
  | error e => simp [GetAllianceTagText, Run.bind_def, Run.pure_def, Run.bind_mk_ok, Run.bind_mk_err,
      Run.bind_mk_panic, Run.call_ok, Run.call_error, Run.emit, Run.fail, Run.abort,
      scanner.GetImageRect, scanner.PreProcessImage, scanner.GetImageText, png.Encode, atoiOrFail, h1]
  | ok p =>
    cases h2 : env.GetImageText p [tagWhitelist] with
    | error e => simp [GetAllianceTagText, Run.bind_def, Run.pure_def, Run.bind_mk_ok, Run.bind_mk_err,
      Run.bind_mk_panic, Run.call_ok, Run.call_error, Run.emit, Run.fail, Run.abort,
      scanner.GetImageRect, scanner.PreProcessImage, scanner.GetImageText, png.Encode, atoiOrFail, h1, h2]
    | ok t => simp [GetAllianceTagText, Run.bind_def, Run.pure_def, Run.bind_mk_ok, Run.bind_mk_err,
      Run.bind_mk_panic, Run.call_ok, Run.call_error, Run.emit, Run.fail, Run.abort,
      scanner.GetImageRect, scanner.PreProcessImage, scanner.GetImageText, png.Encode, atoiOrFail, h1, h2]

theorem GetAllianceNameText_eq {Image : Type} (env : Env Image) (img : Image) :
    GetAllianceNameText env img =
      match env.PreProcessImage (env.GetImageRect 204 290 160 24 img) false false false with
      | .error e => ⟨.err e, [.GetImageRect 204 290 160 24, .PreProcessImage false false false]⟩
      | .ok p =>
        match env.EncodePNG (env.imageFile ++ str "-name.png") p with
        | some e =>
          ⟨.err e, [.GetImageRect 204 290 160 24, .PreProcessImage false false false,
            .EncodePNG (env.imageFile ++ str "-name.png")]⟩
        | none =>
          ⟨(match env.GetImageText p [] with
            | .error e => .err e
            | .ok t => .ok t),
           [.GetImageRect 204 290 160 24, .PreProcessImage false false false,
            .EncodePNG (env.imageFile ++ str "-name.png"), .GetImageText []]⟩ := by
  cases h1 : env.PreProcessImage (env.GetImageRect 204 290 160 24 img) false false false with
  | error e => simp [GetAllianceNameText, Run.bind_def, Run.pure_def, Run.bind_mk_ok, Run.bind_mk_err,
      Run.bind_mk_panic, Run.call_ok, Run.call_error, Run.emit, Run.fail, Run.abort,
      scanner.GetImageRect, scanner.PreProcessImage, scanner.GetImageText, png.Encode, atoiOrFail, h1]
  | ok p =>
    cases h2 : env.EncodePNG (env.imageFile ++ str "-name.png") p with
    | some e => simp [GetAllianceNameText, Run.bind_def, Run.pure_def, Run.bind_mk_ok, Run.bind_mk_err,
      Run.bind_mk_panic, Run.call_ok, Run.call_error, Run.emit, Run.fail, Run.abort,
      scanner.GetImageRect, scanner.PreProcessImage, scanner.GetImageText, png.Encode, atoiOrFail, h1, h2]
    | none =>
      cases h3 : env.GetImageText p [] with
      | error e => simp [GetAllianceNameText, Run.bind_def, Run.pure_def, Run.bind_mk_ok, Run.bind_mk_err,
      Run.bind_mk_panic, Run.call_ok, Run.call_error, Run.emit, Run.fail, Run.abort,
      scanner.GetImageRect, scanner.PreProcessImage, scanner.GetImageText, png.Encode, atoiOrFail, h1, h2, h3]
      | ok t => simp [GetAllianceNameText, Run.bind_def, Run.pure_def, Run.bind_mk_ok, Run.bind_mk_err,
      Run.bind_mk_panic, Run.call_ok, Run.call_error, Run.emit, Run.fail, Run.abort,
      scanner.GetImageRect, scanner.PreProcessImage, scanner.GetImageText, png.Encode, atoiOrFail, h1, h2, h3]

theorem GetAlliancePowerText_eq {Image : Type} (env : Env Image) (img : Image) :
    GetAlliancePowerText env img =
      match env.PreProcessImage (env.GetImageRect 280 317 96 18 img) true true true with
      | .error e => ⟨.err e, [.GetImageRect 280 317 96 18, .PreProcessImage true true true]⟩
      | .ok p =>
        ⟨(match env.GetImageText p [digitWhitelist] with
          | .error e => .err e
          | .ok t =>
            match (Atoi t).2 with
            | some e => .err e
            | none => .ok (Atoi t).1),
         [.GetImageRect 280 317 96 18, .PreProcessImage true true true,
          .GetImageText [digitWhitelist]]⟩ := by
  cases h1 : env.PreProcessImage (env.GetImageRect 280 317 96 18 img) true true true with
  | error e => simp [GetAlliancePowerText, Run.bind_def, Run.pure_def, Run.bind_mk_ok, Run.bind_mk_err,
      Run.bind_mk_panic, Run.call_ok, Run.call_error, Run.emit, Run.fail, Run.abort,
      scanner.GetImageRect, scanner.PreProcessImage, scanner.GetImageText, png.Encode, atoiOrFail, h1]
  | ok p =>
    cases h2 : env.GetImageText p [digitWhitelist] with
    | error e => simp [GetAlliancePowerText, Run.bind_def, Run.pure_def, Run.bind_mk_ok, Run.bind_mk_err,
      Run.bind_mk_panic, Run.call_ok, Run.call_error, Run.emit, Run.fail, Run.abort,
      scanner.GetImageRect, scanner.PreProcessImage, scanner.GetImageText, png.Encode, atoiOrFail, h1, h2]
    | ok t =>
      cases h3 : (Atoi t).2 with
      | some e => simp [GetAlliancePowerText, Run.bind_def, Run.pure_def, Run.bind_mk_ok, Run.bind_mk_err,
      Run.bind_mk_panic, Run.call_ok, Run.call_error, Run.emit, Run.fail, Run.abort,
      scanner.GetImageRect, scanner.PreProcessImage, scanner.GetImageText, png.Encode, atoiOrFail, h1, h2, h3]
      | none => simp [GetAlliancePowerText, Run.bind_def, Run.pure_def, Run.bind_mk_ok, Run.bind_mk_err,
      Run.bind_mk_panic, Run.call_ok, Run.call_error, Run.emit, Run.fail, Run.abort,
      scanner.GetImageRect, scanner.PreProcessImage, scanner.GetImageText, png.Encode, atoiOrFail, h1, h2, h3]

theorem GetAllianceGiftText_eq {Image : Type} (env : Env Image) (img : Image) :
    GetAllianceGiftText env img =
      match env.PreProcessImage (env.GetImageRect 356 351 19 15 img) true true true with
      | .error e => ⟨.err e, [.GetImageRect 356 351 19 15, .PreProcessImage true true true]⟩
      | .ok p =>
        ⟨(match env.GetImageText p [digitWhitelist] with
          | .error e => .err e
          | .ok t =>
            match (Atoi t).2 with
            | some e => .err e
            | none => .ok (Atoi t).1),
         [.GetImageRect 356 351 19 15, .PreProcessImage true true true,
          .GetImageText [digitWhitelist]]⟩ := by
  cases h1 : env.PreProcessImage (env.GetImageRect 356 351 19 15 img) true true true with
  | error e => simp [GetAllianceGiftText, Run.bind_def, Run.pure_def, Run.bind_mk_ok, Run.bind_mk_err,
      Run.bind_mk_panic, Run.call_ok, Run.call_error, Run.emit, Run.fail, Run.abort,
      scanner.GetImageRect, scanner.PreProcessImage, scanner.GetImageText, png.Encode, atoiOrFail, h1]
  | ok p =>
    cases h2 : env.GetImageText p [digitWhitelist] with
    | error e => simp [GetAllianceGiftText, Run.bind_def, Run.pure_def, Run.bind_mk_ok, Run.bind_mk_err,
      Run.bind_mk_panic, Run.call_ok, Run.call_error, Run.emit, Run.fail, Run.abort,
      scanner.GetImageRect, scanner.PreProcessImage, scanner.GetImageText, png.Encode, atoiOrFail, h1, h2]
    | ok t =>
      cases h3 : (Atoi t).2 with
      | some e => simp [GetAllianceGiftText, Run.bind_def, Run.pure_def, Run.bind_mk_ok, Run.bind_mk_err,
      Run.bind_mk_panic, Run.call_ok, Run.call_error, Run.emit, Run.fail, Run.abort,
      scanner.GetImageRect, scanner.PreProcessImage, scanner.GetImageText, png.Encode, atoiOrFail, h1, h2, h3]
      | none => simp [GetAllianceGiftText, Run.bind_def, Run.pure_def, Run.bind_mk_ok, Run.bind_mk_err,
      Run.bind_mk_panic, Run.call_ok, Run.call_error, Run.emit, Run.fail, Run.abort,
      scanner.GetImageRect, scanner.PreProcessImage, scanner.GetImageText, png.Encode, atoiOrFail, h1, h2, h3]

theorem GetAllianceMemberText_eq {Image : Type} (env : Env Image) (img : Image) :
    GetAllianceMemberText env img =
      match env.PreProcessImage (env.GetImageRect 316 366 28 16 img) true true true with
      | .error e => ⟨.err e, [.GetImageRect 316 366 28 16, .PreProcessImage true true true]⟩
      | .ok p =>
        ⟨(match env.GetImageText p [digitWhitelist] with
          | .error e => .err e
          | .ok t =>
            match (Atoi t).2 with
            | some e => .err e
            | none => .ok (Atoi t).1),
         [.GetImageRect 316 366 28 16, .PreProcessImage true true true,
          .GetImageText [digitWhitelist]]⟩ := by
  cases h1 : env.PreProcessImage (env.GetImageRect 316 366 28 16 img) true true true with
  | error e => simp [GetAllianceMemberText, Run.bind_def, Run.pure_def, Run.bind_mk_ok, Run.bind_mk_err,
      Run.bind_mk_panic, Run.call_ok, Run.call_error, Run.emit, Run.fail, Run.abort,
      scanner.GetImageRect, scanner.PreProcessImage, scanner.GetImageText, png.Encode, atoiOrFail, h1]
  | ok p =>
    cases h2 : env.GetImageText p [digitWhitelist] with
    | error e => simp [GetAllianceMemberText, Run.bind_def, Run.pure_def, Run.bind_mk_ok, Run.bind_mk_err,
      Run.bind_mk_panic, Run.call_ok, Run.call_error, Run.emit, Run.fail, Run.abort,
      scanner.GetImageRect, scanner.PreProcessImage, scanner.GetImageText, png.Encode, atoiOrFail, h1, h2]
    | ok t =>
      cases h3 : (Atoi t).2 with
      | some e => simp [GetAllianceMemberText, Run.bind_def, Run.pure_def, Run.bind_mk_ok, Run.bind_mk_err,
      Run.bind_mk_panic, Run.call_ok, Run.call_error, Run.emit, Run.fail, Run.abort,
      scanner.GetImageRect, scanner.PreProcessImage, scanner.GetImageText, png.Encode, atoiOrFail, h1, h2, h3]
      | none => simp [GetAllianceMemberText, Run.bind_def, Run.pure_def, Run.bind_mk_ok, Run.bind_mk_err,
      Run.bind_mk_panic, Run.call_ok, Run.call_error, Run.emit, Run.fail, Run.abort,
      scanner.GetImageRect, scanner.PreProcessImage, scanner.GetImageText, png.Encode, atoiOrFail, h1, h2, h3]

/-- The outcome of a numeric extraction function, from the text it is given. -/
theorem numericField_out {Image : Type} (env : Env Image) (img : Image) (k : Nat) :
    (numericField env img k).out =
      match numericText env img k with
      | .error e => .err e
      | .ok t =>
        match (Atoi t).2 with
        | some e => .err e
        | none => .ok (Atoi t).1 := by
  match k with
  | 0 =>
    simp only [numericField, numericText, GetAlliancePowerText_eq]
    cases env.PreProcessImage (env.GetImageRect 280 317 96 18 img) true true true <;> rfl
  | 1 =>
    simp only [numericField, numericText, GetAllianceGiftText_eq]
    cases env.PreProcessImage (env.GetImageRect 356 351 19 15 img) true true true <;> rfl
  | k + 2 =>
    simp only [numericField, numericText, GetAllianceMemberText_eq]
    cases env.PreProcessImage (env.GetImageRect 316 366 28 16 img) true true true <;> rfl


/-! ## Numeric fields -/

theorem mem_unsigned_of_comma (s : GoString) (h : (44 : Byte) ∈ s) : (44 : Byte) ∈ unsigned s := by
  unfold unsigned
  split_ifs with hs
  · cases s with
    | nil => simp at h
    | cons b rest =>
      rcases List.mem_cons.mp h with hb | hb
      · exfalso
        subst hb
        simp only [List.head?_cons, Option.some.injEq] at hs
        revert hs
        decide
      · exact hb
  · exact h

/-- C1 (as amended). The numeric extraction functions (power, gift level,
member count) hand the recognised text to `strconv.Atoi` as it is, without
removing thousands separators: a text that contains a comma makes the function
return a `strconv` error and no integer, and a non-empty text of decimal digits
only, of value below `2 ^ 63`, makes it return the integer the digits denote. -/
theorem numeric_text_is_not_stripped {Image : Type} (env : Env Image) (img : Image) (k : Nat)
    (s : GoString) (hocr : numericText env img k = .ok s) :
    ((44 : Byte) ∈ s → ∃ kind, (numericField env img k).out = .err (.NumError "Atoi" s kind)) ∧
    (s ≠ [] → (∀ b ∈ s, isDigit b) → decimalValue s < 2 ^ 63 →
      (numericField env img k).out = .ok (decimalValue s : Nat)) := by
  rw [numericField_out, hocr]
  constructor
  · intro hc
    have hbad : ∃ b ∈ unsigned s, ¬ isDigit b :=
      ⟨44, mem_unsigned_of_comma s hc, by decide⟩
    obtain ⟨kind, hk⟩ := Atoi_malformed s (Or.inr (Or.inr hbad))
    exact ⟨kind, by simp only [hk]⟩
  · intro hne hdig hv
    have h := Atoi_digits s hne hdig
    rw [if_pos hv] at h
    simp only [h]

set_option maxRecDepth 100000 in
/-- C1, witness: on the sample scan the power text `1234567` is parsed to
1234567, and on the scan with separators the text `1,234,567` is refused. -/
theorem numeric_text_is_not_stripped_witness :
    (numericField newScanEnv 0 0).out = .ok 1234567 ∧
    (∃ kind, (numericField commaEnv 0 0).out =
      .err (.NumError "Atoi" (str "1,234,567") kind)) :=
  ⟨(numeric_text_is_not_stripped newScanEnv 0 0 (str "1234567") rfl).2
      (by decide) (by decide) (by decide),
   (numeric_text_is_not_stripped commaEnv 0 0 (str "1,234,567") rfl).1 (by decide)⟩

set_option maxRecDepth 100000 in
/-- C1, counterexample: when `scanner.GetImageText` returns `1,234,567` for
the power region, `GetAlliancePowerText` returns the syntax error of
`strconv.Atoi`, and `ScanAlliance` returns that error and no record, so no
snapshot with `Power = 1234567` is assembled. -/
theorem comma_text_is_refused :
    numericText commaEnv 0 0 = .ok (str "1,234,567") ∧
    (GetAlliancePowerText commaEnv 0).out =
      .err (.NumError "Atoi" (str "1,234,567") .ErrSyntax) ∧
    (ScanAlliance commaEnv).out = .err (.NumError "Atoi" (str "1,234,567") .ErrSyntax) := by
  refine ⟨rfl, ?_, ?_⟩ <;> decide

/-- C2 (as amended). A recognised text that is empty, or that after removal of
one leading sign (`+` or `-`) is empty or contains any byte other than the
decimal digits `0`-`9` (a comma included: nothing is removed), makes the
numeric extraction functions return a `strconv` error and no integer. -/
theorem malformed_numeric_text_fails {Image : Type} (env : Env Image) (img : Image) (k : Nat)
    (s : GoString) (hocr : numericText env img k = .ok s)
    (hbad : s = [] ∨ unsigned s = [] ∨ ∃ b ∈ unsigned s, ¬ isDigit b) :
    ∃ kind, (numericField env img k).out = .err (.NumError "Atoi" s kind) := by
  rw [numericField_out, hocr]
  obtain ⟨kind, hk⟩ := Atoi_malformed s hbad
  exact ⟨kind, by simp only [hk]⟩

set_option maxRecDepth 100000 in
/-- C2, witness: the text `12a` read for the power region is refused. -/
theorem malformed_numeric_text_fails_witness :
    ∃ kind, (numericField letterEnv 0 0).out = .err (.NumError "Atoi" (str "12a") kind) :=
  malformed_numeric_text_fails letterEnv 0 0 (str "12a") rfl
    (Or.inr (Or.inr ⟨97, by decide, by decide⟩))

set_option maxRecDepth 100000 in
/-- C2, counterexample: the texts `-5` and `+5` contain a character other than
a decimal digit, and `GetAlliancePowerText` and `GetAllianceGiftText` return
the integers -5 and 5 for them, with no error; the scan succeeds and stores
them. -/
theorem signed_text_is_accepted :
    numericText signedEnv 0 0 = .ok (str "-5") ∧
    numericText signedEnv 0 1 = .ok (str "+5") ∧
    (GetAlliancePowerText signedEnv 0).out = .ok (-5) ∧
    (GetAllianceGiftText signedEnv 0).out = .ok 5 ∧
    (ScanAlliance signedEnv).out =
      .ok ⟨1, [], [], ⟨[⟨str "2024-03-09", str "ABC", str "Alpha Bravo", -5, 5, 99⟩], 1⟩⟩ := by
  refine ⟨rfl, rfl, ?_, ?_, ?_⟩ <;> decide

/-! ## Field specs -/

set_option maxRecDepth 100000 in
theorem digitWhitelist_spec :
    (∀ b : Byte, b ∈ digitWhitelist ↔ isDigit b) ∧ digitWhitelist.length = 10 := by
  unfold isDigit
  decide

set_option maxRecDepth 100000 in
theorem tagWhitelist_spec :
    (∀ b : Byte, b ∈ tagWhitelist ↔
      (b = 60 ∨ b = 62 ∨ isDigit b ∨ (97 ≤ b.val ∧ b.val ≤ 122) ∨ (65 ≤ b.val ∧ b.val ≤ 90))) ∧
    tagWhitelist.length = 64 := by
  unfold isDigit
  decide

/-- The calls each of the five extraction functions makes. -/
theorem extraction_logs {Image : Type} (env : Env Image) (img : Image) :
    (GetAllianceTagText env img).log =
      [.GetImageRect 157 292 48 20, .PreProcessImage false false false] ++
        (match env.PreProcessImage (env.GetImageRect 157 292 48 20 img) false false false with
         | .ok _ => [.GetImageText [tagWhitelist]]
         | .error _ => []) ∧
    (GetAllianceNameText env img).log =
      [.GetImageRect 204 290 160 24, .PreProcessImage false false false] ++
        (match env.PreProcessImage (env.GetImageRect 204 290 160 24 img) false false false with
         | .ok p =>
           .EncodePNG (env.imageFile ++ str "-name.png") ::
             (match env.EncodePNG (env.imageFile ++ str "-name.png") p with
              | none => [.GetImageText []]
              | some _ => [])
         | .error _ => []) ∧
    (GetAlliancePowerText env img).log =
      [.GetImageRect 280 317 96 18, .PreProcessImage true true true] ++
        (match env.PreProcessImage (env.GetImageRect 280 317 96 18 img) true true true with
         | .ok _ => [.GetImageText [digitWhitelist]]
         | .error _ => []) ∧
    (GetAllianceGiftText env img).log =
      [.GetImageRect 356 351 19 15, .PreProcessImage true true true] ++
        (match env.PreProcessImage (env.GetImageRect 356 351 19 15 img) true true true with
         | .ok _ => [.GetImageText [digitWhitelist]]
         | .error _ => []) ∧
    (GetAllianceMemberText env img).log =
      [.GetImageRect 316 366 28 16, .PreProcessImage true true true] ++
        (match env.PreProcessImage (env.GetImageRect 316 366 28 16 img) true true true with
         | .ok _ => [.GetImageText [digitWhitelist]]
         | .error _ => []) := by
  refine ⟨?_, ?_, ?_, ?_, ?_⟩
  · rw [GetAllianceTagText_eq]
    cases env.PreProcessImage (env.GetImageRect 157 292 48 20 img) false false false <;> rfl
  · rw [GetAllianceNameText_eq]
    cases h1 : env.PreProcessImage (env.GetImageRect 204 290 160 24 img) false false false with
    | error e => rfl
    | ok p =>
      simp only []
      cases env.EncodePNG (env.imageFile ++ str "-name.png") p <;> rfl
  · rw [GetAlliancePowerText_eq]
    cases env.PreProcessImage (env.GetImageRect 280 317 96 18 img) true true true <;> rfl
  · rw [GetAllianceGiftText_eq]
    cases env.PreProcessImage (env.GetImageRect 356 351 19 15 img) true true true <;> rfl
  · rw [GetAllianceMemberText_eq]
    cases env.PreProcessImage (env.GetImageRect 316 366 28 16 img) true true true <;> rfl

/-- C9. Each field is extracted with its own field spec. The three numeric
functions crop their region, pre-process it with the three flags `true` and
recognise it with the one whitelist `0123456789` (exactly the ten digits); the
tag function pre-processes with the three flags `false` and recognises with the
one whitelist made of `<`, `>` and the 62 ASCII letters and digits; the name
function pre-processes with the three flags `false`, writes the PNG and
recognises with no whitelist. Recognition is reached exactly when the preceding
calls succeed. -/
theorem field_specs {Image : Type} (env : Env Image) (img : Image) :
    (GetAllianceTagText env img).log =
      [.GetImageRect 157 292 48 20, .PreProcessImage false false false] ++
        (match env.PreProcessImage (env.GetImageRect 157 292 48 20 img) false false false with
         | .ok _ => [.GetImageText [tagWhitelist]]
         | .error _ => []) ∧
    (GetAllianceNameText env img).log =
      [.GetImageRect 204 290 160 24, .PreProcessImage false false false] ++
        (match env.PreProcessImage (env.GetImageRect 204 290 160 24 img) false false false with
         | .ok p =>
           .EncodePNG (env.imageFile ++ str "-name.png") ::
             (match env.EncodePNG (env.imageFile ++ str "-name.png") p with
              | none => [.GetImageText []]
              | some _ => [])
         | .error _ => []) ∧
    (GetAlliancePowerText env img).log =
      [.GetImageRect 280 317 96 18, .PreProcessImage true true true] ++
        (match env.PreProcessImage (env.GetImageRect 280 317 96 18 img) true true true with
         | .ok _ => [.GetImageText [digitWhitelist]]
         | .error _ => []) ∧
    (GetAllianceGiftText env img).log =
      [.GetImageRect 356 351 19 15, .PreProcessImage true true true] ++
        (match env.PreProcessImage (env.GetImageRect 356 351 19 15 img) true true true with
         | .ok _ => [.GetImageText [digitWhitelist]]
         | .error _ => []) ∧
    (GetAllianceMemberText env img).log =
      [.GetImageRect 316 366 28 16, .PreProcessImage true true true] ++
        (match env.PreProcessImage (env.GetImageRect 316 366 28 16 img) true true true with
         | .ok _ => [.GetImageText [digitWhitelist]]
         | .error _ => []) ∧
    ((∀ b : Byte, b ∈ digitWhitelist ↔ isDigit b) ∧ digitWhitelist.length = 10) ∧
    ((∀ b : Byte, b ∈ tagWhitelist ↔
        (b = 60 ∨ b = 62 ∨ isDigit b ∨ (97 ≤ b.val ∧ b.val ≤ 122) ∨
          (65 ≤ b.val ∧ b.val ≤ 90))) ∧
      tagWhitelist.length = 64) :=
  ⟨(extraction_logs env img).1, (extraction_logs env img).2.1, (extraction_logs env img).2.2.1,
    (extraction_logs env img).2.2.2.1, (extraction_logs env img).2.2.2.2,
    digitWhitelist_spec, tagWhitelist_spec⟩

/-! ## Failure of an extraction -/

theorem Run.void_ok {α : Type} {x : Run α} (h : x.void.out = .ok ()) : ∃ a, x.out = .ok a := by
  unfold Run.void at h
  cases hx : x.out with
  | ok a => exact ⟨a, rfl⟩
  | err e => rw [hx] at h; cases h
  | panic => rw [hx] at h; cases h

theorem Run.void_err {α : Type} {x : Run α} {e : Error} (h : x.void.out = .err e) :
    x.out = .err e := by
  unfold Run.void at h
  cases hx : x.out with
  | ok a => rw [hx] at h; cases h
  | err e2 => rw [hx] at h; simpa using h
  | panic => rw [hx] at h; cases h

theorem field_log_subset {Image : Type} (env : Env Image) (img : Image) (k : Nat) :
    ∀ ev ∈ (field env img k).log, ev ∈ fieldEvents env k := by
  obtain ⟨h0, h1, h2, h3, h4⟩ := extraction_logs env img
  intro ev
  match k with
  | 0 =>
    simp only [field, Run.void, h0]
    cases env.PreProcessImage (env.GetImageRect 157 292 48 20 img) false false false <;>
      (simp [fieldEvents]; try tauto)
  | 1 =>
    simp only [field, Run.void, h1]
    cases env.PreProcessImage (env.GetImageRect 204 290 160 24 img) false false false with
    | error e => simp [fieldEvents]; tauto
    | ok p =>
      simp only []
      cases env.EncodePNG (env.imageFile ++ str "-name.png") p <;>
        (simp [fieldEvents]; try tauto)
  | 2 =>
    simp only [field, Run.void, h2]
    cases env.PreProcessImage (env.GetImageRect 280 317 96 18 img) true true true <;>
      (simp [fieldEvents]; try tauto)
  | 3 =>
    simp only [field, Run.void, h3]
    cases env.PreProcessImage (env.GetImageRect 356 351 19 15 img) true true true <;>
      (simp [fieldEvents]; try tauto)
  | k + 4 =>
    simp only [field, Run.void, h4]
    cases env.PreProcessImage (env.GetImageRect 316 366 28 16 img) true true true <;>
      (simp [fieldEvents]; try tauto)

theorem fieldRect_mem_fieldEvents {Image : Type} (env : Env Image) (j i : Nat) (hj : j < 5)
    (hi : i < 5) (h : fieldRect i ∈ fieldEvents env j) : i = j := by
  interval_cases j <;> interval_cases i <;> simp [fieldRect, fieldEvents] at h <;> rfl

theorem fieldEvents_kind {Image : Type} (env : Env Image) (j : Nat) :
    ∀ ev ∈ fieldEvents env j,
      ev.isGetByTag = false ∧ ev.isMarshalIndent = false ∧ ev.isWriteFile = false ∧
        ev.isPrintf = false := by
  intro ev hev
  match j with
  | 0 => simp [fieldEvents] at hev; rcases hev with rfl | rfl | rfl <;> simp [Event.isGetByTag, Event.isMarshalIndent, Event.isWriteFile, Event.isPrintf]
  | 1 => simp [fieldEvents] at hev; rcases hev with rfl | rfl | rfl | rfl <;> simp [Event.isGetByTag, Event.isMarshalIndent, Event.isWriteFile, Event.isPrintf]
  | 2 => simp [fieldEvents] at hev; rcases hev with rfl | rfl | rfl <;> simp [Event.isGetByTag, Event.isMarshalIndent, Event.isWriteFile, Event.isPrintf]
  | 3 => simp [fieldEvents] at hev; rcases hev with rfl | rfl | rfl <;> simp [Event.isGetByTag, Event.isMarshalIndent, Event.isWriteFile, Event.isPrintf]
  | k + 4 => simp [fieldEvents] at hev; rcases hev with rfl | rfl | rfl <;> simp [Event.isGetByTag, Event.isMarshalIndent, Event.isWriteFile, Event.isPrintf]

/-- The run of `ScanAlliance` when the extraction of field `k` is the first to
fail. -/
theorem ScanAlliance_field_failure {Image : Type} (env : Env Image) (img : Image) (k : Nat)
    (e : Error) (hk : k < 5)
    (hd : env.SetImageDensity env.inputFile 300 = .ok img)
    (hprev : ∀ j, j < k → (field env img j).out = .ok ())
    (hfail : (field env img k).out = .err e) :
    ScanAlliance env =
      ⟨.err e, .SetImageDensity env.inputFile 300 ::
        ((List.range (k + 1)).map (fun j => (field env img j).log)).flatten⟩ := by
  have hd2 : (scanner.SetImageDensity env env.inputFile 300).out = .ok img := by
    simp [scanner.SetImageDensity, hd, Run.call]
  have hdl : (scanner.SetImageDensity env env.inputFile 300).log =
      [.SetImageDensity env.inputFile 300] := by
    simp [scanner.SetImageDensity, hd, Run.call]
  interval_cases k
  · have hf := Run.void_err (x := GetAllianceTagText env img) hfail
    unfold ScanAlliance
    simp only [Run.bind_of_ok _ hd2, Run.bind_of_err _ hf, hdl]
    simp [List.range_succ, field, Run.void]
  · obtain ⟨tag, ht⟩ := Run.void_ok (x := GetAllianceTagText env img) (hprev 0 (by omega))
    have hf := Run.void_err (x := GetAllianceNameText env img) hfail
    unfold ScanAlliance
    simp only [Run.bind_of_ok _ hd2, Run.bind_of_ok _ ht, Run.bind_of_err _ hf, hdl]
    simp [List.range_succ, field, Run.void]
  · obtain ⟨tag, ht⟩ := Run.void_ok (x := GetAllianceTagText env img) (hprev 0 (by omega))
    obtain ⟨name, hn⟩ := Run.void_ok (x := GetAllianceNameText env img) (hprev 1 (by omega))
    have hf := Run.void_err (x := GetAlliancePowerText env img) hfail
    unfold ScanAlliance
    simp only [Run.bind_of_ok _ hd2, Run.bind_of_ok _ ht, Run.bind_of_ok _ hn,
      Run.bind_of_err _ hf, hdl]
    simp [List.range_succ, field, Run.void]
  · obtain ⟨tag, ht⟩ := Run.void_ok (x := GetAllianceTagText env img) (hprev 0 (by omega))
    obtain ⟨name, hn⟩ := Run.void_ok (x := GetAllianceNameText env img) (hprev 1 (by omega))
    obtain ⟨power, hp⟩ := Run.void_ok (x := GetAlliancePowerText env img) (hprev 2 (by omega))
    have hf := Run.void_err (x := GetAllianceGiftText env img) hfail
    unfold ScanAlliance
    simp only [Run.bind_of_ok _ hd2, Run.bind_of_ok _ ht, Run.bind_of_ok _ hn,
      Run.bind_of_ok _ hp, Run.bind_of_err _ hf, hdl]
    simp [List.range_succ, field, Run.void]
  · obtain ⟨tag, ht⟩ := Run.void_ok (x := GetAllianceTagText env img) (hprev 0 (by omega))
    obtain ⟨name, hn⟩ := Run.void_ok (x := GetAllianceNameText env img) (hprev 1 (by omega))
    obtain ⟨power, hp⟩ := Run.void_ok (x := GetAlliancePowerText env img) (hprev 2 (by omega))
    obtain ⟨gift, hg⟩ := Run.void_ok (x := GetAllianceGiftText env img) (hprev 3 (by omega))
    have hf := Run.void_err (x := GetAllianceMemberText env img) hfail
    unfold ScanAlliance
    simp only [Run.bind_of_ok _ hd2, Run.bind_of_ok _ ht, Run.bind_of_ok _ hn,
      Run.bind_of_ok _ hp, Run.bind_of_ok _ hg, Run.bind_of_err _ hf, hdl]
    simp [List.range_succ, field, Run.void]

/-- C6. If, the image being loaded, the extraction of a field fails, then for
the first failing field `k` in the order tag, name, power, gift level, member
count (0 to 4), `ScanAlliance` returns exactly that field's error and no
record; its calls are the image load followed by the calls of the fields up to
`k`, so that no later field is extracted (its region is never cropped), the
store is not consulted, nothing is printed or serialised and the output file is
not written. -/
theorem extraction_failure_aborts {Image : Type} (env : Env Image) (img : Image) (k : Nat)
    (e : Error) (hk : k < 5)
    (hd : env.SetImageDensity env.inputFile 300 = .ok img)
    (hprev : ∀ j, j < k → (field env img j).out = .ok ())
    (hfail : (field env img k).out = .err e) :
    (ScanAlliance env).out = .err e ∧
    (ScanAlliance env).log =
      .SetImageDensity env.inputFile 300 ::
        ((List.range (k + 1)).map (fun j => (field env img j).log)).flatten ∧
    (∀ j, k < j → j < 5 → fieldRect j ∉ (ScanAlliance env).log) ∧
    (∀ ev ∈ (ScanAlliance env).log,
      ev.isGetByTag = false ∧ ev.isMarshalIndent = false ∧ ev.isWriteFile = false ∧
        ev.isPrintf = false) := by
  have h := ScanAlliance_field_failure env img k e hk hd hprev hfail
  have hmem : ∀ ev ∈ (ScanAlliance env).log,
      ev = .SetImageDensity env.inputFile 300 ∨ ∃ j, j ≤ k ∧ ev ∈ fieldEvents env j := by
    intro ev hev
    rw [h] at hev
    simp only [List.mem_cons, List.mem_flatten, List.mem_map, List.mem_range] at hev
    rcases hev with hev | ⟨l, ⟨j, hj, rfl⟩, hev⟩
    · exact Or.inl hev
    · exact Or.inr ⟨j, by omega, field_log_subset env img j ev hev⟩
  refine ⟨by rw [h], by rw [h], ?_, ?_⟩
  · intro j hkj hj hin
    rcases hmem _ hin with hev | ⟨i, hi, hev⟩
    · have : j < 5 := hj
      interval_cases j <;> simp [fieldRect] at hev
    · have := fieldRect_mem_fieldEvents env i j (by omega) hj hev
      omega
  · intro ev hev
    rcases hmem ev hev with rfl | ⟨i, _, hi⟩
    · simp [Event.isGetByTag, Event.isMarshalIndent, Event.isWriteFile, Event.isPrintf]
    · exact fieldEvents_kind env i ev hi

set_option maxRecDepth 100000 in
/-- C6, witness: when the pre-processing of the power region fails, the scan
returns that error after the tag, name and power calls only. -/
theorem extraction_failure_aborts_witness :
    (ScanAlliance powerFailsEnv).out = .err (.other 3) ∧
    (ScanAlliance powerFailsEnv).log =
      .SetImageDensity powerFailsEnv.inputFile 300 ::
        ((List.range (2 + 1)).map (fun j => (field powerFailsEnv 0 j).log)).flatten ∧
    (∀ j, 2 < j → j < 5 → fieldRect j ∉ (ScanAlliance powerFailsEnv).log) ∧
    (∀ ev ∈ (ScanAlliance powerFailsEnv).log,
      ev.isGetByTag = false ∧ ev.isMarshalIndent = false ∧ ev.isWriteFile = false ∧
        ev.isPrintf = false) :=
  extraction_failure_aborts powerFailsEnv 0 2 (.other 3) (by decide) rfl
    (by intro j hj; interval_cases j <;> decide) (by decide)


/-! ## The store lookup and the serialisation -/

theorem serialize_eq {Image : Type} (env : Env Image) (a : Alliance) :
    serialize env a =
      match a.Data.sliceTo 1 with
      | none => ⟨.panic, []⟩
      | some s =>
        match env.MarshalIndent a.Server a.Tag a.Name s.toList with
        | .error e => ⟨.err e, [.MarshalIndent { a with Data := s }]⟩
        | .ok j =>
          match env.WriteFile env.outputFile j 0o644 with
          | some e =>
            ⟨.err e, [.MarshalIndent { a with Data := s }, .WriteFile env.outputFile j 0o644]⟩
          | none =>
            ⟨.ok { a with Data := s },
              [.MarshalIndent { a with Data := s }, .WriteFile env.outputFile j 0o644]⟩ := by
  cases h1 : a.Data.sliceTo 1 with
  | none => simp [serialize, h1, Run.bind_def, Run.abort, Run.bind_mk_panic]
  | some s =>
    cases h2 : env.MarshalIndent a.Server a.Tag a.Name s.toList with
    | error e =>
      simp [serialize, h1, h2, Run.bind_def, Run.pure_def, Run.bind_mk_ok, Run.bind_mk_err,
        json.MarshalIndent, Run.call_error, Alliance.history]
    | ok j =>
      cases h3 : env.WriteFile env.outputFile j 0o644 with
      | some e =>
        simp [serialize, h1, h2, h3, Run.bind_def, Run.pure_def, Run.bind_mk_ok,
          Run.bind_mk_err, json.MarshalIndent, os.WriteFile, Run.call_ok, Run.call_error,
          Alliance.history]
      | none =>
        simp [serialize, h1, h2, h3, Run.bind_def, Run.pure_def, Run.bind_mk_ok,
          Run.bind_mk_err, json.MarshalIndent, os.WriteFile, Run.call_ok, Run.call_error,
          Alliance.history]

theorem afterLookup_err {Image : Type} (env : Env Image) (r : Alliance × Option Error)
    (e : Error) (h : r.2 = some e) (hne : e ≠ .ErrNoRows) :
    afterLookup env r = ⟨.err e, []⟩ := by
  simp [afterLookup, h, hne, Run.bind_def, Run.fail, Run.bind_mk_err]

theorem afterLookup_new {Image : Type} (env : Env Image) (r : Alliance × Option Error)
    (h : r.2 = some .ErrNoRows) :
    afterLookup env r =
      ⟨(serialize env r.1).out,
        .Printf newFormat [env.outputFile] :: (serialize env r.1).log⟩ := by
  simp [afterLookup, h, Run.bind_def, fmt.Printf, Run.emit, Run.bind_mk_ok]

theorem afterLookup_existing {Image : Type} (env : Env Image) (r : Alliance × Option Error)
    (h : r.2 = none) :
    afterLookup env r =
      ⟨(serialize env r.1).out,
        .Printf existingFormat [env.outputFile] :: (serialize env r.1).log⟩ := by
  simp [afterLookup, h, Run.bind_def, fmt.Printf, Run.emit, Run.bind_mk_ok]

theorem extractionLog_kind {Image : Type} (env : Env Image) (img : Image) :
    ∀ ev ∈ extractionLog env img,
      ev.isGetByTag = false ∧ ev.isMarshalIndent = false ∧ ev.isWriteFile = false ∧
        ev.isPrintf = false := by
  intro ev hev
  simp only [extractionLog, List.mem_cons, List.mem_append] at hev
  have hk := fun j h => fieldEvents_kind env j ev (field_log_subset env img j ev h)
  rcases hev with rfl | (((h | h) | h) | h) | h
  · simp [Event.isGetByTag, Event.isMarshalIndent, Event.isWriteFile, Event.isPrintf]
  · exact hk 0 h
  · exact hk 1 h
  · exact hk 2 h
  · exact hk 3 h
  · exact hk 4 h

/-- C3. Once the five fields are extracted, `ScanAlliance` calls `GetByTag`
on the assembled record and classifies the result into three outcomes.
(1) An error other than `sql.ErrNoRows`: that error is returned with no
record, nothing is printed, and the output file is not written.
(2) `sql.ErrNoRows`: the message for a new alliance is printed and the scan
goes on to serialisation; when truncation, marshalling and writing succeed the
output file is written with the marshalled record and the record is returned.
(3) No error: the same with the message for an existing alliance. -/
theorem lookup_outcomes {Image : Type} (env : Env Image) (img : Image)
    (tag name : GoString) (power gift memcount : Int)
    (hd : env.SetImageDensity env.inputFile 300 = .ok img)
    (ht : (GetAllianceTagText env img).out = .ok tag)
    (hn : (GetAllianceNameText env img).out = .ok name)
    (hp : (GetAlliancePowerText env img).out = .ok power)
    (hg : (GetAllianceGiftText env img).out = .ok gift)
    (hm : (GetAllianceMemberText env img).out = .ok memcount) :
    (∀ e, (env.GetByTag (assembled env tag name power gift memcount) tag).2 = some e →
      e ≠ .ErrNoRows →
        (ScanAlliance env).out = .err e ∧
        (ScanAlliance env).log = extractionLog env img ++
          [.Now, .GetByTag (assembled env tag name power gift memcount) tag] ∧
        (∀ ev ∈ (ScanAlliance env).log,
          ev.isPrintf = false ∧ ev.isMarshalIndent = false ∧ ev.isWriteFile = false)) ∧
    (∀ s j, (env.GetByTag (assembled env tag name power gift memcount) tag).2 =
        some .ErrNoRows →
      (env.GetByTag (assembled env tag name power gift memcount) tag).1.Data.sliceTo 1 = some s →
      env.MarshalIndent (env.GetByTag (assembled env tag name power gift memcount) tag).1.Server
        (env.GetByTag (assembled env tag name power gift memcount) tag).1.Tag
        (env.GetByTag (assembled env tag name power gift memcount) tag).1.Name s.toList = .ok j →
      env.WriteFile env.outputFile j 0o644 = none →
        (ScanAlliance env).out =
          .ok { (env.GetByTag (assembled env tag name power gift memcount) tag).1 with
                Data := s } ∧
        (ScanAlliance env).log = extractionLog env img ++
          [.Now, .GetByTag (assembled env tag name power gift memcount) tag,
           .Printf newFormat [env.outputFile],
           .MarshalIndent { (env.GetByTag (assembled env tag name power gift memcount) tag).1
                            with Data := s },
           .WriteFile env.outputFile j 0o644]) ∧
    (∀ s j, (env.GetByTag (assembled env tag name power gift memcount) tag).2 = none →
      (env.GetByTag (assembled env tag name power gift memcount) tag).1.Data.sliceTo 1 = some s →
      env.MarshalIndent (env.GetByTag (assembled env tag name power gift memcount) tag).1.Server
        (env.GetByTag (assembled env tag name power gift memcount) tag).1.Tag
        (env.GetByTag (assembled env tag name power gift memcount) tag).1.Name s.toList = .ok j →
      env.WriteFile env.outputFile j 0o644 = none →
        (ScanAlliance env).out =
          .ok { (env.GetByTag (assembled env tag name power gift memcount) tag).1 with
                Data := s } ∧
        (ScanAlliance env).log = extractionLog env img ++
          [.Now, .GetByTag (assembled env tag name power gift memcount) tag,
           .Printf existingFormat [env.outputFile],
           .MarshalIndent { (env.GetByTag (assembled env tag name power gift memcount) tag).1
                            with Data := s },
           .WriteFile env.outputFile j 0o644]) := by
  have hS := ScanAlliance_extracted env img tag name power gift memcount hd ht hn hp hg hm
  refine ⟨?_, ?_, ?_⟩
  · intro e he hne
    rw [hS, afterLookup_err env _ e he hne]
    refine ⟨rfl, by simp, ?_⟩
    intro ev hev
    simp only [List.append_nil, List.mem_append, List.mem_cons, List.mem_singleton,
      List.not_mem_nil, or_false] at hev
    rcases hev with hev | rfl | rfl
    · have := extractionLog_kind env img ev hev
      exact ⟨this.2.2.2, this.2.1, this.2.2.1⟩
    · simp [Event.isMarshalIndent, Event.isWriteFile, Event.isPrintf]
    · simp [Event.isMarshalIndent, Event.isWriteFile, Event.isPrintf]
  · intro s j he hs hj hw
    rw [hS, afterLookup_new env _ he, serialize_eq]
    simp [hs, hj, hw]
  · intro s j he hs hj hw
    rw [hS, afterLookup_existing env _ he, serialize_eq]
    simp [hs, hj, hw]


set_option maxRecDepth 100000 in
/-- C3, witness: the three outcomes on the sample scans. With an empty store
the record is returned and the file written after the message for a new
alliance; with a store that knows the tag, after the message for an existing
one; with a failing store the error is returned. -/
theorem lookup_outcomes_witness :
    ((ScanAlliance brokenStoreEnv).out = .err (.other 7) ∧
      (ScanAlliance brokenStoreEnv).log = extractionLog brokenStoreEnv 0 ++
        [.Now, .GetByTag (assembled brokenStoreEnv (str "ABC") (str "Alpha Bravo") 1234567 7 99)
          (str "ABC")] ∧
      (∀ ev ∈ (ScanAlliance brokenStoreEnv).log,
        ev.isPrintf = false ∧ ev.isMarshalIndent = false ∧ ev.isWriteFile = false)) ∧
    (ScanAlliance newScanEnv).out =
      .ok ⟨1, [], [], ⟨[⟨str "2024-03-09", str "ABC", str "Alpha Bravo", 1234567, 7, 99⟩], 1⟩⟩ ∧
    (ScanAlliance existingScanEnv).out =
      .ok ⟨1, [], [], ⟨[⟨str "2024-03-09", str "ABC", str "Alpha Bravo", 1234567, 7, 99⟩], 1⟩⟩ :=
  ⟨(lookup_outcomes brokenStoreEnv 0 (str "ABC") (str "Alpha Bravo") 1234567 7 99 rfl
      (by decide) (by decide) (by decide) (by decide) (by decide)).1 (.other 7) rfl (by decide),
   ((lookup_outcomes newScanEnv 0 (str "ABC") (str "Alpha Bravo") 1234567 7 99 rfl
      (by decide) (by decide) (by decide) (by decide) (by decide)).2.1
        ⟨[⟨str "2024-03-09", str "ABC", str "Alpha Bravo", 1234567, 7, 99⟩], 1⟩
        (str "\n\nABC\nAlpha Bravo") rfl rfl rfl rfl).1,
   ((lookup_outcomes existingScanEnv 0 (str "ABC") (str "Alpha Bravo") 1234567 7 99 rfl
      (by decide) (by decide) (by decide) (by decide) (by decide)).2.2
        ⟨[⟨str "2024-03-09", str "ABC", str "Alpha Bravo", 1234567, 7, 99⟩], 1⟩
        (str "\n\nABC\nAlpha Bravo") rfl rfl rfl rfl).1⟩


/-! ## The returned record -/

theorem afterLookup_ok_inv {Image : Type} (env : Env Image) (x : Alliance × Option Error)
    (r : Alliance) (h : (afterLookup env x).out = .ok r) :
    ∃ s, x.1.Data.sliceTo 1 = some s ∧ r = { x.1 with Data := s } := by
  have hser : (serialize env x.1).out = .ok r := by
    cases h2 : x.2 with
    | none => rw [afterLookup_existing env x h2] at h; exact h
    | some e =>
      by_cases he : e = .ErrNoRows
      · subst he
        rw [afterLookup_new env x h2] at h; exact h
      · rw [afterLookup_err env x e h2 he] at h; cases h
  rw [serialize_eq] at hser
  cases hs : x.1.Data.sliceTo 1 with
  | none => rw [hs] at hser; cases hser
  | some s =>
    rw [hs] at hser
    refine ⟨s, rfl, ?_⟩
    simp only [] at hser
    cases hj : env.MarshalIndent x.1.Server x.1.Tag x.1.Name s.toList with
    | error e => rw [hj] at hser; cases hser
    | ok j =>
      rw [hj] at hser
      simp only [] at hser
      cases hw : env.WriteFile env.outputFile j 0o644 with
      | some e => rw [hw] at hser; cases hser
      | none =>
        rw [hw] at hser
        simp only [Outcome.ok.injEq] at hser
        exact hser.symm

/-- The record a successful scan returns, when the lookup has left the
assembled record as it was. -/
theorem ScanAlliance_returns_assembled {Image : Type} (env : Env Image) (img : Image)
    (tag name : GoString) (power gift memcount : Int)
    (hd : env.SetImageDensity env.inputFile 300 = .ok img)
    (ht : (GetAllianceTagText env img).out = .ok tag)
    (hn : (GetAllianceNameText env img).out = .ok name)
    (hp : (GetAlliancePowerText env img).out = .ok power)
    (hg : (GetAllianceGiftText env img).out = .ok gift)
    (hm : (GetAllianceMemberText env img).out = .ok memcount)
    (r : Alliance) (hr : (ScanAlliance env).out = .ok r)
    (hl : (env.GetByTag (assembled env tag name power gift memcount) tag).1 =
      assembled env tag name power gift memcount) :
    r = assembled env tag name power gift memcount := by
  rw [ScanAlliance_extracted env img tag name power gift memcount hd ht hn hp hg hm] at hr
  obtain ⟨s, hs, hrs⟩ := afterLookup_ok_inv env _ r hr
  rw [hl] at hs hrs
  simp [assembled, Slice.sliceTo, Slice.cap] at hs
  subst hs
  rw [hrs]
  rfl

theorem mem_log_GetByTag {Image : Type} (env : Env Image) (img : Image)
    (tag name : GoString) (power gift memcount : Int)
    (hd : env.SetImageDensity env.inputFile 300 = .ok img)
    (ht : (GetAllianceTagText env img).out = .ok tag)
    (hn : (GetAllianceNameText env img).out = .ok name)
    (hp : (GetAlliancePowerText env img).out = .ok power)
    (hg : (GetAllianceGiftText env img).out = .ok gift)
    (hm : (GetAllianceMemberText env img).out = .ok memcount) :
    Event.GetByTag (assembled env tag name power gift memcount) tag ∈ (ScanAlliance env).log := by
  rw [ScanAlliance_extracted env img tag name power gift memcount hd ht hn hp hg hm]
  simp

/-! ## The lookup outcome and the output -/

theorem ScanAlliance_with_lookup {Image : Type} (env : Env Image)
    (g : Alliance → GoString → Alliance × Option Error) :
    ScanAlliance { env with GetByTag := g } =
      extraction env >>= fun f =>
        (⟨(afterLookup env (g (assembled env f.1 f.2.1 f.2.2.1 f.2.2.2.1 f.2.2.2.2) f.1)).out,
          [.Now, .GetByTag (assembled env f.1 f.2.1 f.2.2.1 f.2.2.2.1 f.2.2.2.2) f.1] ++
            (afterLookup env (g (assembled env f.1 f.2.1 f.2.2.1 f.2.2.2.1 f.2.2.2.2)
              f.1)).log⟩ : Run Alliance) := by
  rw [ScanAlliance_eq_bind]
  rfl

/-- Two lookups that leave the record in the same state, one reporting
`sql.ErrNoRows` and one reporting no error, give the same outcome and, the
calls of `fmt.Printf` apart, the same calls. -/
theorem ScanAlliance_lookup_congr {Image : Type} (env : Env Image)
    (g1 g2 : Alliance → GoString → Alliance × Option Error)
    (hsame : ∀ a t, (g1 a t).1 = (g2 a t).1)
    (h1 : ∀ a t, (g1 a t).2 = some .ErrNoRows)
    (h2 : ∀ a t, (g2 a t).2 = none) :
    (ScanAlliance { env with GetByTag := g1 }).out =
      (ScanAlliance { env with GetByTag := g2 }).out ∧
    (ScanAlliance { env with GetByTag := g1 }).log.filter (fun ev => !ev.isPrintf) =
      (ScanAlliance { env with GetByTag := g2 }).log.filter (fun ev => !ev.isPrintf) := by
  rw [ScanAlliance_with_lookup, ScanAlliance_with_lookup]
  cases hx : (extraction env).out with
  | ok f =>
    rw [Run.bind_of_ok _ hx, Run.bind_of_ok _ hx]
    simp only [afterLookup_new env _ (h1 _ _), afterLookup_existing env _ (h2 _ _), hsame]
    simp [List.filter_append, List.filter_cons, Event.isPrintf]
  | err e =>
    rw [Run.bind_of_err _ hx, Run.bind_of_err _ hx]
    exact ⟨rfl, rfl⟩
  | panic =>
    rw [Run.bind_of_panic _ hx, Run.bind_of_panic _ hx]
    exact ⟨rfl, rfl⟩

/-- C4. With the lookup a pure classification (`pureLookup`), two runs of
`ScanAlliance` with the same recognised fields, server and capture date, one
whose lookup reports not-found and one whose lookup finds a record, end the
same way (the same returned record, or the same failure), and make the same
calls apart from `fmt.Printf`: in particular the same `os.WriteFile` call with
the same serialised bytes. -/
theorem classification_does_not_alter_output {Image : Type} (env : Env Image)
    (c1 c2 : Alliance → GoString → Option Error)
    (h1 : ∀ a t, c1 a t = some .ErrNoRows) (h2 : ∀ a t, c2 a t = none) :
    (ScanAlliance { env with GetByTag := pureLookup c1 }).out =
      (ScanAlliance { env with GetByTag := pureLookup c2 }).out ∧
    (ScanAlliance { env with GetByTag := pureLookup c1 }).log.filter (fun ev => !ev.isPrintf) =
      (ScanAlliance { env with GetByTag := pureLookup c2 }).log.filter
        (fun ev => !ev.isPrintf) :=
  ScanAlliance_lookup_congr env (pureLookup c1) (pureLookup c2) (fun _ _ => rfl)
    (fun a t => h1 a t) (fun a t => h2 a t)

set_option maxRecDepth 100000 in
/-- C4, witness: the scan of an unknown alliance and the scan of a known one
return the same record and write the same bytes to the same file. -/
theorem classification_does_not_alter_output_witness :
    ((ScanAlliance newScanEnv).out = (ScanAlliance existingScanEnv).out ∧
      (ScanAlliance newScanEnv).log.filter (fun ev => !ev.isPrintf) =
        (ScanAlliance existingScanEnv).log.filter (fun ev => !ev.isPrintf)) ∧
    Event.WriteFile (str "alliance.json") (str "\n\nABC\nAlpha Bravo") 0o644 ∈
      (ScanAlliance newScanEnv).log ∧
    Event.Printf newFormat [str "alliance.json"] ∈ (ScanAlliance newScanEnv).log ∧
    Event.Printf existingFormat [str "alliance.json"] ∈ (ScanAlliance existingScanEnv).log :=
  ⟨classification_does_not_alter_output newScanEnv (fun _ _ => some .ErrNoRows)
      (fun _ _ => none) (fun _ _ => rfl) (fun _ _ => rfl),
    by decide, by decide, by decide⟩

/-! ## Text fields and assembly -/

/-- C7 (as amended). The text `scanner.GetImageText` returns for the tag
region and for the name region is passed through unchanged: no white space is
trimmed and no character is altered. The tag and name the two functions return,
the `Tag` and `Name` of the snapshot in the record handed to `GetByTag`, and
the tag the lookup is called with, are these texts; so are the `Tag` and `Name`
of the one snapshot of the returned record when the lookup leaves the record
as it is. -/
theorem text_fields_are_verbatim {Image : Type} (env : Env Image) (img p1 p2 : Image)
    (t n : GoString) (power gift memcount : Int)
    (hd : env.SetImageDensity env.inputFile 300 = .ok img)
    (hp1 : env.PreProcessImage (env.GetImageRect 157 292 48 20 img) false false false = .ok p1)
    (ho1 : env.GetImageText p1 [tagWhitelist] = .ok t)
    (hp2 : env.PreProcessImage (env.GetImageRect 204 290 160 24 img) false false false = .ok p2)
    (he2 : env.EncodePNG (env.imageFile ++ str "-name.png") p2 = none)
    (ho2 : env.GetImageText p2 [] = .ok n)
    (hp : (GetAlliancePowerText env img).out = .ok power)
    (hg : (GetAllianceGiftText env img).out = .ok gift)
    (hm : (GetAllianceMemberText env img).out = .ok memcount) :
    (GetAllianceTagText env img).out = .ok t ∧
    (GetAllianceNameText env img).out = .ok n ∧
    Event.GetByTag
      ⟨env.server, [], [],
        ⟨[⟨env.Now.FormatDateOnly, t, n, int64 power, int64 gift, int64 memcount⟩], 1⟩⟩ t ∈
      (ScanAlliance env).log ∧
    (∀ r, (ScanAlliance env).out = .ok r →
      (env.GetByTag
        ⟨env.server, [], [],
          ⟨[⟨env.Now.FormatDateOnly, t, n, int64 power, int64 gift, int64 memcount⟩], 1⟩⟩ t).1 =
        ⟨env.server, [], [],
          ⟨[⟨env.Now.FormatDateOnly, t, n, int64 power, int64 gift, int64 memcount⟩], 1⟩⟩ →
      r.history =
        [⟨env.Now.FormatDateOnly, t, n, int64 power, int64 gift, int64 memcount⟩]) := by
  have ht : (GetAllianceTagText env img).out = .ok t := by
    rw [GetAllianceTagText_eq, hp1]
    simp only [ho1]
  have hn : (GetAllianceNameText env img).out = .ok n := by
    rw [GetAllianceNameText_eq, hp2]
    simp only [he2, ho2]
  refine ⟨ht, hn, mem_log_GetByTag env img t n power gift memcount hd ht hn hp hg hm, ?_⟩
  intro r hr hl
  rw [ScanAlliance_returns_assembled env img t n power gift memcount hd ht hn hp hg hm r hr hl]
  rfl

set_option maxRecDepth 100000 in
/-- C7, witness: on the scan whose tag and name regions are read with
surrounding white space, the texts reach the snapshot as they were read. -/
theorem text_fields_are_verbatim_witness :
    (GetAllianceTagText untrimmedEnv 0).out = .ok (str " ABC\n") ∧
    (GetAllianceNameText untrimmedEnv 0).out = .ok (str "Alpha Bravo ") ∧
    Event.GetByTag
      ⟨untrimmedEnv.server, [], [],
        ⟨[⟨untrimmedEnv.Now.FormatDateOnly, str " ABC\n", str "Alpha Bravo ", int64 1234567,
            int64 7, int64 99⟩], 1⟩⟩ (str " ABC\n") ∈
      (ScanAlliance untrimmedEnv).log ∧
    (∀ r, (ScanAlliance untrimmedEnv).out = .ok r →
      (untrimmedEnv.GetByTag
        ⟨untrimmedEnv.server, [], [],
          ⟨[⟨untrimmedEnv.Now.FormatDateOnly, str " ABC\n", str "Alpha Bravo ", int64 1234567,
              int64 7, int64 99⟩], 1⟩⟩ (str " ABC\n")).1 =
        ⟨untrimmedEnv.server, [], [],
          ⟨[⟨untrimmedEnv.Now.FormatDateOnly, str " ABC\n", str "Alpha Bravo ", int64 1234567,
              int64 7, int64 99⟩], 1⟩⟩ →
      r.history =
        [⟨untrimmedEnv.Now.FormatDateOnly, str " ABC\n", str "Alpha Bravo ", int64 1234567,
            int64 7, int64 99⟩]) :=
  text_fields_are_verbatim untrimmedEnv 0 157 204 (str " ABC\n") (str "Alpha Bravo ")
    1234567 7 99 rfl rfl rfl rfl rfl rfl (by decide) (by decide) (by decide)

set_option maxRecDepth 100000 in
/-- C7, counterexample: `scanner.GetImageText` returns ` ABC` followed by a
line feed for the tag region and `Alpha Bravo` followed by a space for the name
region. The scan succeeds and the snapshot of the returned record holds the two
texts with their white space, not the trimmed texts `ABC` and `Alpha Bravo`. -/
theorem untrimmed_text_is_stored :
    (ScanAlliance untrimmedEnv).out =
      .ok ⟨1, [], [],
        ⟨[⟨str "2024-03-09", str " ABC\n", str "Alpha Bravo ", 1234567, 7, 99⟩], 1⟩⟩ ∧
    TrimSpace (str " ABC\n") = str "ABC" ∧
    TrimSpace (str "Alpha Bravo ") = str "Alpha Bravo" ∧
    str " ABC\n" ≠ TrimSpace (str " ABC\n") ∧
    str "Alpha Bravo " ≠ TrimSpace (str "Alpha Bravo ") := by
  decide

/-- C8. Assembly is deterministic and records the capture date with day
granularity. Once the five fields are extracted, the record `ScanAlliance`
has assembled when it calls `GetByTag` has `Server` equal to the configured
server and exactly one snapshot, whose `Date` is the capture time in the layout
`2006-01-02`, whose `Tag` and `Name` are the extracted tag and name and whose
`Power`, `GiftLevel` and `MemberCount` are the three extracted integers
converted to `int64`; a successful scan returns this record when the lookup
leaves it as it is; and a scan at another time of the same calendar day is the
same run, with the same outcome and the same calls. -/
theorem assembly_is_deterministic {Image : Type} (env : Env Image) (img : Image)
    (tag name : GoString) (power gift memcount : Int)
    (hd : env.SetImageDensity env.inputFile 300 = .ok img)
    (ht : (GetAllianceTagText env img).out = .ok tag)
    (hn : (GetAllianceNameText env img).out = .ok name)
    (hp : (GetAlliancePowerText env img).out = .ok power)
    (hg : (GetAllianceGiftText env img).out = .ok gift)
    (hm : (GetAllianceMemberText env img).out = .ok memcount) :
    Event.GetByTag
      ⟨env.server, [], [],
        ⟨[⟨env.Now.FormatDateOnly, tag, name, int64 power, int64 gift, int64 memcount⟩], 1⟩⟩
      tag ∈ (ScanAlliance env).log ∧
    (∀ r, (ScanAlliance env).out = .ok r →
      (env.GetByTag
        ⟨env.server, [], [],
          ⟨[⟨env.Now.FormatDateOnly, tag, name, int64 power, int64 gift, int64 memcount⟩], 1⟩⟩
        tag).1 =
        ⟨env.server, [], [],
          ⟨[⟨env.Now.FormatDateOnly, tag, name, int64 power, int64 gift, int64 memcount⟩], 1⟩⟩ →
      r.Server = env.server ∧
      r.history =
        [⟨env.Now.FormatDateOnly, tag, name, int64 power, int64 gift, int64 memcount⟩]) ∧
    (∀ t2 : time.Time, t2.year = env.Now.year → t2.month = env.Now.month →
      t2.day = env.Now.day → ScanAlliance { env with Now := t2 } = ScanAlliance env) := by
  refine ⟨mem_log_GetByTag env img tag name power gift memcount hd ht hn hp hg hm, ?_, ?_⟩
  · intro r hr hl
    rw [ScanAlliance_returns_assembled env img tag name power gift memcount hd ht hn hp hg hm
      r hr hl]
    exact ⟨rfl, rfl⟩
  · intro t2 hy hmo hda
    have hfmt : t2.FormatDateOnly = env.Now.FormatDateOnly := by
      unfold time.Time.FormatDateOnly
      rw [hy, hmo, hda]
    have hA : ∀ a b (c d e : Int),
        assembled { env with Now := t2 } a b c d e = assembled env a b c d e := by
      intro a b c d e
      simp only [assembled, hfmt]
    rw [ScanAlliance_eq_bind, ScanAlliance_eq_bind]
    simp only [hA]
    rfl

set_option maxRecDepth 100000 in
/-- C8, witness: the sample scan of 2024-03-09 assembles the record dated
`2024-03-09`, and a scan later the same day is the same run. -/
theorem assembly_is_deterministic_witness :
    newScanEnv.Now.FormatDateOnly = str "2024-03-09" ∧
    Event.GetByTag
      ⟨newScanEnv.server, [], [],
        ⟨[⟨newScanEnv.Now.FormatDateOnly, str "ABC", str "Alpha Bravo", int64 1234567, int64 7,
            int64 99⟩], 1⟩⟩
      (str "ABC") ∈ (ScanAlliance newScanEnv).log ∧
    ScanAlliance { newScanEnv with Now := ⟨2024, 3, 9, 86399⟩ } = ScanAlliance newScanEnv :=
  ⟨by decide,
   (assembly_is_deterministic newScanEnv 0 (str "ABC") (str "Alpha Bravo") 1234567 7 99 rfl
      (by decide) (by decide) (by decide) (by decide) (by decide)).1,
   (assembly_is_deterministic newScanEnv 0 (str "ABC") (str "Alpha Bravo") 1234567 7 99 rfl
      (by decide) (by decide) (by decide) (by decide) (by decide)).2.2 ⟨2024, 3, 9, 86399⟩
      rfl rfl rfl⟩

/-! ## The history of the returned record -/

/-- C5. With the lookup a pure classification (`pureLookup`), whatever it
reports: every record returned by a successful `ScanAlliance` has exactly one
entry in its history (`Data` has length 1), and that entry is the snapshot
assembled from the current scan, made of the capture date, the tag and name
extracted from the image and the three extracted integers. -/
theorem returned_record_has_current_snapshot {Image : Type} (env : Env Image)
    (c : Alliance → GoString → Option Error) (r : Alliance)
    (h : (ScanAlliance { env with GetByTag := pureLookup c }).out = .ok r) :
    r.history.length = 1 ∧ r.Data.len = 1 ∧
    ∃ img tag name power gift memcount,
      env.SetImageDensity env.inputFile 300 = .ok img ∧
      (GetAllianceTagText env img).out = .ok tag ∧
      (GetAllianceNameText env img).out = .ok name ∧
      (GetAlliancePowerText env img).out = .ok power ∧
      (GetAllianceGiftText env img).out = .ok gift ∧
      (GetAllianceMemberText env img).out = .ok memcount ∧
      r.history =
        [⟨env.Now.FormatDateOnly, tag, name, int64 power, int64 gift, int64 memcount⟩] := by
  have h0 := h
  rw [ScanAlliance_with_lookup] at h0
  obtain ⟨f, hx, -⟩ := Run.bind_ok_inv h0
  obtain ⟨tag, name, power, gift, memcount⟩ := f
  obtain ⟨img, hd, ht, hn, hp, hg, hm, -⟩ :=
    extraction_ok_inv env tag name power gift memcount hx
  have hr := ScanAlliance_returns_assembled { env with GetByTag := pureLookup c } img tag name
    power gift memcount hd ht hn hp hg hm r h rfl
  rw [hr]
  exact ⟨rfl, rfl, img, tag, name, power, gift, memcount, hd, ht, hn, hp, hg, hm, rfl⟩

set_option maxRecDepth 100000 in
/-- C5, witness: the scan of a known alliance returns a record whose history is
the one snapshot of the current scan. -/
theorem returned_record_has_current_snapshot_witness :
    (⟨1, [], [], ⟨[⟨str "2024-03-09", str "ABC", str "Alpha Bravo", 1234567, 7, 99⟩], 1⟩⟩ :
      Alliance).history.length = 1 ∧
    (⟨1, [], [], ⟨[⟨str "2024-03-09", str "ABC", str "Alpha Bravo", 1234567, 7, 99⟩], 1⟩⟩ :
      Alliance).Data.len = 1 ∧
    ∃ img tag name power gift memcount,
      newScanEnv.SetImageDensity newScanEnv.inputFile 300 = .ok img ∧
      (GetAllianceTagText newScanEnv img).out = .ok tag ∧
      (GetAllianceNameText newScanEnv img).out = .ok name ∧
      (GetAlliancePowerText newScanEnv img).out = .ok power ∧
      (GetAllianceGiftText newScanEnv img).out = .ok gift ∧
      (GetAllianceMemberText newScanEnv img).out = .ok memcount ∧
      (⟨1, [], [], ⟨[⟨str "2024-03-09", str "ABC", str "Alpha Bravo", 1234567, 7, 99⟩], 1⟩⟩ :
        Alliance).history =
        [⟨newScanEnv.Now.FormatDateOnly, tag, name, int64 power, int64 gift,
          int64 memcount⟩] :=
  returned_record_has_current_snapshot newScanEnv (fun _ _ => none)
    ⟨1, [], [], ⟨[⟨str "2024-03-09", str "ABC", str "Alpha Bravo", 1234567, 7, 99⟩], 1⟩⟩
    (by decide)

/-! ## Numeric fields in the snapshot -/

/-- C10. For a non-empty text of decimal digits (leading zeros allowed) read
for a numeric field. If its value is at most `2 ^ 63 - 1`: the extraction
function returns exactly that value and its conversion to `int64` is the same
value; and in every scan whose five extractions succeed, the snapshot of the
record `ScanAlliance` hands to `GetByTag` holds exactly that value in the
field's place (`Power`, `GiftLevel` or `MemberCount`), as does every snapshot of
the returned record when the lookup leaves the record as it is. If its value
exceeds `2 ^ 63 - 1`: the extraction function returns the range error of
`strconv.Atoi` and no integer, and `ScanAlliance` returns no record, so no
wrapped value is stored. -/
theorem digit_text_is_stored_exactly {Image : Type} (env : Env Image) (img : Image) (k : Nat)
    (s : GoString) (hocr : numericText env img k = .ok s) (hne : s ≠ [])
    (hdig : ∀ b ∈ s, isDigit b) :
    (decimalValue s ≤ 2 ^ 63 - 1 →
      (numericField env img k).out = .ok (decimalValue s : Nat) ∧
      int64 (decimalValue s : Nat) = (decimalValue s : Nat) ∧
      (∀ (tag name : GoString) (power gift memcount : Int),
        env.SetImageDensity env.inputFile 300 = .ok img →
        (GetAllianceTagText env img).out = .ok tag →
        (GetAllianceNameText env img).out = .ok name →
        (GetAlliancePowerText env img).out = .ok power →
        (GetAllianceGiftText env img).out = .ok gift →
        (GetAllianceMemberText env img).out = .ok memcount →
          Event.GetByTag
            ⟨env.server, [], [],
              ⟨[⟨env.Now.FormatDateOnly, tag, name, int64 power, int64 gift,
                  int64 memcount⟩], 1⟩⟩ tag ∈ (ScanAlliance env).log ∧
          numericSlot
            ⟨env.Now.FormatDateOnly, tag, name, int64 power, int64 gift, int64 memcount⟩ k =
            (decimalValue s : Nat) ∧
          (∀ r, (ScanAlliance env).out = .ok r →
            (env.GetByTag
              ⟨env.server, [], [],
                ⟨[⟨env.Now.FormatDateOnly, tag, name, int64 power, int64 gift,
                    int64 memcount⟩], 1⟩⟩ tag).1 =
              ⟨env.server, [], [],
                ⟨[⟨env.Now.FormatDateOnly, tag, name, int64 power, int64 gift,
                    int64 memcount⟩], 1⟩⟩ →
            r.history.length = 1 ∧
            ∀ d ∈ r.history, numericSlot d k = (decimalValue s : Nat)))) ∧
    (decimalValue s > 2 ^ 63 - 1 →
      (numericField env img k).out = .err (.NumError "Atoi" s .ErrRange) ∧
      (env.SetImageDensity env.inputFile 300 = .ok img →
        ∀ r, (ScanAlliance env).out ≠ .ok r)) := by
  have hout := numericField_out env img k
  rw [hocr] at hout
  have h := Atoi_digits s hne hdig
  constructor
  · intro hv
    have hv2 : decimalValue s < 2 ^ 63 := by omega
    rw [if_pos hv2] at h
    have hnum : (numericField env img k).out = .ok ((decimalValue s : Nat) : Int) := by
      rw [hout]; simp only [h]
    have hint : int64 ((decimalValue s : Nat) : Int) = ((decimalValue s : Nat) : Int) := by
      unfold int64
      apply wrapInt64_of_range <;> omega
    refine ⟨hnum, hint, ?_⟩
    intro tag name power gift memcount hd ht hn hp hg hm
    have hslot : numericSlot
        ⟨env.Now.FormatDateOnly, tag, name, int64 power, int64 gift, int64 memcount⟩ k =
        ((decimalValue s : Nat) : Int) := by
      match k with
      | 0 =>
        simp only [numericField, hp, Outcome.ok.injEq] at hnum
        simp only [numericSlot, hnum, hint]
      | 1 =>
        simp only [numericField, hg, Outcome.ok.injEq] at hnum
        simp only [numericSlot, hnum, hint]
      | k + 2 =>
        simp only [numericField, hm, Outcome.ok.injEq] at hnum
        simp only [numericSlot, hnum, hint]
    refine ⟨mem_log_GetByTag env img tag name power gift memcount hd ht hn hp hg hm, hslot, ?_⟩
    intro r hr hl
    have hra := ScanAlliance_returns_assembled env img tag name power gift memcount
      hd ht hn hp hg hm r hr hl
    rw [hra]
    refine ⟨rfl, ?_⟩
    intro d hmem
    have hd2 : d =
        ⟨env.Now.FormatDateOnly, tag, name, int64 power, int64 gift, int64 memcount⟩ := by
      simpa [assembled, Alliance.history, Slice.toList] using hmem
    rw [hd2]
    exact hslot
  · intro hv
    have hv2 : ¬ decimalValue s < 2 ^ 63 := by omega
    rw [if_neg hv2] at h
    have hnum : (numericField env img k).out = .err (.NumError "Atoi" s .ErrRange) := by
      rw [hout]; simp only [h]
    refine ⟨hnum, ?_⟩
    intro hd r hr
    rw [ScanAlliance_eq_bind] at hr
    obtain ⟨f, hx, -⟩ := Run.bind_ok_inv hr
    obtain ⟨tag, name, power, gift, memcount⟩ := f
    obtain ⟨img2, hd2, -, -, hp, hg, hm, -⟩ :=
      extraction_ok_inv env tag name power gift memcount hx
    rw [hd] at hd2
    simp only [Except.ok.injEq] at hd2
    subst hd2
    match k with
    | 0 => simp only [numericField, hp] at hnum; cases hnum
    | 1 => simp only [numericField, hg] at hnum; cases hnum
    | k + 2 => simp only [numericField, hm] at hnum; cases hnum

set_option maxRecDepth 100000 in
/-- C10, witness: the power text `1234567` is parsed to 1234567, the snapshot
handed to `GetByTag` and the one of the returned record hold 1234567 as
`Power`; the power text `9223372036854775808` is refused with the range error
and the scan returns no record. -/
theorem digit_text_is_stored_exactly_witness :
    ((numericField newScanEnv 0 0).out = .ok 1234567 ∧
      Event.GetByTag
        ⟨1, [], [], ⟨[⟨str "2024-03-09", str "ABC", str "Alpha Bravo", 1234567, 7, 99⟩], 1⟩⟩
        (str "ABC") ∈ (ScanAlliance newScanEnv).log ∧
      (ScanAlliance newScanEnv).out =
        .ok ⟨1, [], [],
          ⟨[⟨str "2024-03-09", str "ABC", str "Alpha Bravo", 1234567, 7, 99⟩], 1⟩⟩ ∧
      ∀ d ∈ (⟨1, [], [],
          ⟨[⟨str "2024-03-09", str "ABC", str "Alpha Bravo", 1234567, 7, 99⟩], 1⟩⟩ :
          Alliance).history, numericSlot d 0 = 1234567) ∧
    ((numericField overflowEnv 0 0).out =
        .err (.NumError "Atoi" (str "9223372036854775808") .ErrRange) ∧
      ∀ r, (ScanAlliance overflowEnv).out ≠ .ok r) :=
  ⟨⟨((digit_text_is_stored_exactly newScanEnv 0 0 (str "1234567") rfl (by decide)
        (by decide)).1 (by decide)).1,
    (((digit_text_is_stored_exactly newScanEnv 0 0 (str "1234567") rfl (by decide)
        (by decide)).1 (by decide)).2.2 (str "ABC") (str "Alpha Bravo") 1234567 7 99 rfl
        (by decide) (by decide) (by decide) (by decide) (by decide)).1,
    by decide,
    ((((digit_text_is_stored_exactly newScanEnv 0 0 (str "1234567") rfl (by decide)
        (by decide)).1 (by decide)).2.2 (str "ABC") (str "Alpha Bravo") 1234567 7 99 rfl
        (by decide) (by decide) (by decide) (by decide) (by decide)).2.2
        ⟨1, [], [], ⟨[⟨str "2024-03-09", str "ABC", str "Alpha Bravo", 1234567, 7, 99⟩], 1⟩⟩
        (by decide) rfl).2⟩,
   ⟨((digit_text_is_stored_exactly overflowEnv 0 0 (str "9223372036854775808") rfl
        (by decide) (by decide)).2 (by decide)).1,
    ((digit_text_is_stored_exactly overflowEnv 0 0 (str "9223372036854775808") rfl
        (by decide) (by decide)).2 (by decide)).2 rfl⟩⟩

end Lastwar
